import Mathlib

/-!
Verification of the zkPDF core (zk-rating/zkPDF) against its specification.

Shallow embedding of the Rust sources: bytes are `Nat` values below 256,
Rust `Vec<u8>` and byte slices are `List Nat`, Rust `String` and `str` are
`List Char`, fallible functions return `Except`, and Rust panics are
modelled as `Option.none` or an explicit error value, as noted on each
definition.  External crates (alloy keccak256, the SHA family, the RSA
crate, simple_asn1's `from_der`) enter as explicit function parameters of
the definitions that call them.
-/

namespace ZkPdf

/-- UTF-8 encoding of one Unicode scalar value, as byte values below 256. -/
def utf8EncodeChar (c : Char) : List Nat :=
  if c.toNat < 0x80 then [c.toNat]
  else if c.toNat < 0x800 then [0xC0 + c.toNat / 64, 0x80 + c.toNat % 64]
  else if c.toNat < 0x10000 then
    [0xE0 + c.toNat / 4096, 0x80 + c.toNat / 64 % 64, 0x80 + c.toNat % 64]
  else
    [0xF0 + c.toNat / 262144, 0x80 + c.toNat / 4096 % 64,
      0x80 + c.toNat / 64 % 64, 0x80 + c.toNat % 64]

/-- UTF-8 encoding of a character sequence (Rust `str::as_bytes`). -/
def utf8Encode (s : List Char) : List Nat := s.flatMap utf8EncodeChar

/-- Byte list of a Lean string literal, used to transcribe Rust literals. -/
def strBytes (s : String) : List Nat := utf8Encode s.toList

/-- Decoder and validator for UTF-8: `some` exactly on the byte lists Rust's
`str::from_utf8` accepts, returning the character sequence. -/
def utf8Decode? : List Nat → Option (List Char)
  | [] => some []
  | b :: rest =>
    if b < 0x80 then (utf8Decode? rest).map (fun cs => Char.ofNat b :: cs)
    else if 0xC2 ≤ b ∧ b ≤ 0xDF then
      match rest with
      | c1 :: rest1 =>
        if 0x80 ≤ c1 ∧ c1 < 0xC0 then
          (utf8Decode? rest1).map (fun cs =>
            Char.ofNat ((b - 0xC0) * 64 + (c1 - 0x80)) :: cs)
        else none
      | [] => none
    else if 0xE0 ≤ b ∧ b ≤ 0xEF then
      match rest with
      | c1 :: c2 :: rest2 =>
        if (if b = 0xE0 then 0xA0 else 0x80) ≤ c1 ∧
            c1 ≤ (if b = 0xED then 0x9F else 0xBF) ∧ 0x80 ≤ c2 ∧ c2 < 0xC0 then
          (utf8Decode? rest2).map (fun cs =>
            Char.ofNat ((b - 0xE0) * 4096 + (c1 - 0x80) * 64 + (c2 - 0x80)) :: cs)
        else none
      | _ => none
    else if 0xF0 ≤ b ∧ b ≤ 0xF4 then
      match rest with
      | c1 :: c2 :: c3 :: rest3 =>
        if (if b = 0xF0 then 0x90 else 0x80) ≤ c1 ∧
            c1 ≤ (if b = 0xF4 then 0x8F else 0xBF) ∧
            0x80 ≤ c2 ∧ c2 < 0xC0 ∧ 0x80 ≤ c3 ∧ c3 < 0xC0 then
          (utf8Decode? rest3).map (fun cs =>
            Char.ofNat ((b - 0xF0) * 262144 + (c1 - 0x80) * 4096 +
              (c2 - 0x80) * 64 + (c3 - 0x80)) :: cs)
        else none
      | _ => none
    else none

/-- Rust `char::is_whitespace` (the Unicode White_Space property). -/
def rustCharIsWhitespace (c : Char) : Bool :=
  let n := c.toNat
  n == 0x09 || n == 0x0A || n == 0x0B || n == 0x0C || n == 0x0D || n == 0x20 ||
    n == 0x85 || n == 0xA0 || n == 0x1680 || (0x2000 ≤ n && n ≤ 0x200A) ||
    n == 0x2028 || n == 0x2029 || n == 0x202F || n == 0x205F || n == 0x3000

/-- Helper for `splitWhitespace`: accumulates the current word reversed. -/
def splitWhitespaceAux : List Char → List Char → List (List Char)
  | [], acc => if acc.isEmpty then [] else [acc.reverse]
  | c :: rest, acc =>
    if rustCharIsWhitespace c then
      if acc.isEmpty then splitWhitespaceAux rest []
      else acc.reverse :: splitWhitespaceAux rest []
    else splitWhitespaceAux rest (c :: acc)

/-- Rust `str::split_whitespace`: maximal runs of non-whitespace characters. -/
def splitWhitespace (s : List Char) : List (List Char) := splitWhitespaceAux s []

/-- Rust `u8::is_ascii_whitespace`: space, HT, LF, FF, CR. -/
def isAsciiWs (b : Nat) : Bool :=
  b == 0x09 || b == 0x0A || b == 0x0C || b == 0x0D || b == 0x20

/-- Rust `str::parse::<usize>()`: optional leading plus sign, one or more
ASCII digits, value below 2^64 (64-bit `usize`); `none` on anything else. -/
def parseUsize (s : List Char) : Option Nat :=
  let s1 := match s with
    | '+' :: rest => rest
    | _ => s
  if s1.isEmpty then none
  else
    (s1.foldl (fun acc c =>
      acc.bind (fun a =>
        if 48 ≤ c.toNat ∧ c.toNat ≤ 57 then some (a * 10 + (c.toNat - 48)) else none))
      (some 0)).bind (fun v => if v < 2 ^ 64 then some v else none)

/-- Rust `slice::windows(pat.len()).position(..)` specialised to byte
subslice search: index of the first occurrence of nonempty `pat` in `data`. -/
def findSubslice : List Nat → List Nat → Option Nat
  | [], _ => none
  | d :: rest, pat =>
    if pat.isPrefixOf (d :: rest) then some 0
    else (findSubslice rest pat).map (· + 1)

/-- The 64-bit `usize` modulus; Rust release builds wrap additions mod this. -/
def USIZE : Nat := 2 ^ 64

namespace SignedBytes

/-- Mirrors `SignedBytesError` in signature-validator/src/types.rs. -/
inductive SignedBytesError where
  | ByteRangeNotFound
  | ByteRangeStartMissing
  | ByteRangeEndMissing
  | InvalidByteRangeUtf8
  | InvalidByteRangeCount
  | ByteRangeOutOfBounds
  | ContentsNotFound
  | ContentsStartMissing
  | ContentsEndMissing
  | InvalidContentsUtf8
  | ContentsHexDecode
  deriving DecidableEq, Repr

/-- Mirrors the private `ByteRange` struct of signed_bytes_extractor.rs. -/
structure ByteRange where
  offset1 : Nat
  len1 : Nat
  offset2 : Nat
  len2 : Nat
  deriving DecidableEq, Repr

/-- The literal `/ByteRange` searched for by `parse_byte_range`. -/
def byteRangeLit : List Nat := strBytes "/ByteRange"

/-- Lines 13-29 of signed_bytes_extractor.rs: locate the first `/ByteRange`,
the following left bracket and right bracket, and return the bytes between
them. -/
def locateByteRangeBody (pdf_bytes : List Nat) : Except SignedBytesError (List Nat) :=
  match findSubslice pdf_bytes byteRangeLit with
  | none => .error .ByteRangeNotFound
  | some br_pos =>
    match (pdf_bytes.drop br_pos).findIdx? (fun b => b == 0x5B) with
    | none => .error .ByteRangeStartMissing
    | some i =>
      let br_start := i + br_pos + 1
      match (pdf_bytes.drop br_start).findIdx? (fun b => b == 0x5D) with
      | none => .error .ByteRangeEndMissing
      | some j => .ok ((pdf_bytes.drop br_start).take j)

/-- Mirrors `parse_byte_range` in signed_bytes_extractor.rs.  The bracket body
must be UTF-8; whitespace-separated tokens are parsed as `usize`, tokens that
fail to parse are silently skipped (`filter_map`), and only the first four
parsed integers are kept (`take(4)`).  The two bounds additions are unchecked
`usize` additions: release builds wrap modulo 2^64 (debug builds panic), so
they appear here modulo `USIZE`. -/
def parse_byte_range (pdf_bytes : List Nat) : Except SignedBytesError ByteRange :=
  match locateByteRangeBody pdf_bytes with
  | .error e => .error e
  | .ok body =>
    match utf8Decode? body with
    | none => .error .InvalidByteRangeUtf8
    | some chars =>
      match ((splitWhitespace chars).filterMap parseUsize).take 4 with
      | [offset1, len1, offset2, len2] =>
        if (offset1 + len1) % USIZE > pdf_bytes.length ∨
            (offset2 + len2) % USIZE > pdf_bytes.length then
          .error .ByteRangeOutOfBounds
        else .ok ⟨offset1, len1, offset2, len2⟩
      | _ => .error .InvalidByteRangeCount

/-- Rust slice indexing `&l[a..b]`: `none` models the panic when the range is
inverted or past the end. -/
def rustSlice? (l : List Nat) (a b : Nat) : Option (List Nat) :=
  if a ≤ b ∧ b ≤ l.length then some ((l.drop a).take (b - a)) else none

/-- Mirrors `extract_signed_data`: concatenation of the two ranges.  The end
indices are the same unchecked additions as in `parse_byte_range` (wrapping
modulo 2^64 in release builds); `none` models the slice-index panic. -/
def extract_signed_data (pdf_bytes : List Nat) (br : ByteRange) : Option (List Nat) := do
  let s1 ← rustSlice? pdf_bytes br.offset1 ((br.offset1 + br.len1) % USIZE)
  let s2 ← rustSlice? pdf_bytes br.offset2 ((br.offset2 + br.len2) % USIZE)
  return s1 ++ s2

/-- Helper of `skipAsciiWsFrom`, walking the suffix structurally. -/
def skipAsciiWsGo : List Nat → Nat → Nat
  | [], i => i
  | b :: rest, i => if isAsciiWs b then skipAsciiWsGo rest (i + 1) else i

/-- Rust loop `while cursor < len and pdf[cursor].is_ascii_whitespace()
cursor += 1`, started at `i`. -/
def skipAsciiWsFrom (pdf : List Nat) (i : Nat) : Nat := skipAsciiWsGo (pdf.drop i) i

/-- All positions at which `pat` occurs in `pdf`, in increasing order. -/
def matchPositions (pdf pat : List Nat) : List Nat :=
  (List.range pdf.length).filter (fun p => pat.isPrefixOf (pdf.drop p))

/-- The literal `/Contents` searched for by `extract_signature_hex`. -/
def contentsLit : List Nat := strBytes "/Contents"

/-- One candidate check of `extract_signature_hex`: skip ASCII whitespace
after the `/Contents` key and require a left angle bracket; returns the
cursor position on success. -/
def contentsCheck (pdf : List Nat) (pos : Nat) : Option Nat :=
  let cursor := skipAsciiWsFrom pdf (pos + 9)
  if cursor < pdf.length ∧ pdf.getD cursor 0 = 0x3C then some cursor else none

/-- Mirrors `extract_signature_hex` in signed_bytes_extractor.rs: first
`/Contents` occurrence at or after `/ByteRange` passing the angle-bracket
check, else the last occurrence wholly before it; then the hex text up to the
closing angle bracket with whitespace removed.  The two Rust search loops
advance over non-overlapping occurrences, rendered here as ordered traversals
of the occurrence list. -/
def extract_signature_hex (pdf_bytes : List Nat) (byte_range_pos : Nat) :
    Except SignedBytesError (List Char) :=
  let fwd := ((matchPositions pdf_bytes contentsLit).filter
      (fun p => byte_range_pos ≤ p)).findSome?
      (fun p => (contentsCheck pdf_bytes p).map (fun cursor => (p, cursor)))
  let found := match fwd with
    | some pc => some pc
    | none =>
      (((matchPositions pdf_bytes contentsLit).filter
          (fun p => p + contentsLit.length ≤ byte_range_pos)).reverse).findSome?
        (fun p => (contentsCheck pdf_bytes p).map (fun cursor => (p, cursor)))
  match found with
  | none => .error .ContentsNotFound
  | some (_, cursor_pos) =>
    if cursor_pos ≥ pdf_bytes.length ∨ pdf_bytes.getD cursor_pos 0 ≠ 0x3C then
      .error .ContentsStartMissing
    else
      let hex_start := cursor_pos + 1
      match (pdf_bytes.drop hex_start).findIdx? (fun b => b == 0x3E) with
      | none => .error .ContentsEndMissing
      | some k =>
        match utf8Decode? ((pdf_bytes.drop hex_start).take k) with
        | none => .error .InvalidContentsUtf8
        | some hex_str => .ok ((splitWhitespace hex_str).flatMap id)

/-- Hex digit value, as in the hex crate: 0-9, a-f, A-F. -/
def hexDigitVal? (c : Char) : Option Nat :=
  let n := c.toNat
  if 48 ≤ n ∧ n ≤ 57 then some (n - 48)
  else if 97 ≤ n ∧ n ≤ 102 then some (n - 87)
  else if 65 ≤ n ∧ n ≤ 70 then some (n - 55)
  else none

/-- Hex decoding of an even-length digit string to bytes (`hex::decode`). -/
def hexDecodePairs? : List Char → Option (List Nat)
  | [] => some []
  | [_] => none
  | c1 :: c2 :: rest =>
    match hexDigitVal? c1, hexDigitVal? c2 with
    | some v1, some v2 => (hexDecodePairs? rest).map (fun bs => (v1 * 16 + v2) :: bs)
    | _, _ => none

/-- Mirrors `decode_signature_hex`: hex-decode then pop trailing zero bytes. -/
def decode_signature_hex (hex_str : List Char) : Except SignedBytesError (List Nat) :=
  match hexDecodePairs? hex_str with
  | none => .error .ContentsHexDecode
  | some bs => .ok ((bs.reverse.dropWhile (fun b => b == 0)).reverse)

/-- Mirrors `get_signature_der`: the DER signature blob and the signed byte
ranges.  The outer `Option` models the panic inside `extract_signed_data`. -/
def get_signature_der (pdf_bytes : List Nat) :
    Option (Except SignedBytesError (List Nat × List Nat)) :=
  match parse_byte_range pdf_bytes with
  | .error e => some (.error e)
  | .ok br =>
    match extract_signed_data pdf_bytes br with
    | none => none
    | some signed_data =>
      match findSubslice pdf_bytes byteRangeLit with
      | none => some (.error .ByteRangeNotFound)
      | some br_pos =>
        match extract_signature_hex pdf_bytes br_pos with
        | .error e => some (.error e)
        | .ok hex_str =>
          match decode_signature_hex hex_str with
          | .error e => some (.error e)
          | .ok signature_der => some (.ok (signature_der, signed_data))

/-- A 38-byte input on which the unchecked ByteRange additions overflow. -/
def overflowInput : List Nat := strBytes "/ByteRange[18446744073709551615 1 0 0]"

end SignedBytes

/-- C3: the claim that the core never panics fails: on `overflowInput`
(`/ByteRange[18446744073709551615 1 0 0]`) `parse_byte_range` accepts the
range because `offset1 + len1` wraps to 0 modulo 2^64 in release builds (in
debug builds the addition itself panics), and `extract_signed_data` then
panics slicing `pdf[2^64-1 .. 0]`; the panic is modelled as `none`. -/
theorem C3_extract_signed_data_panics :
    SignedBytes.parse_byte_range SignedBytes.overflowInput =
      .ok ⟨18446744073709551615, 1, 0, 0⟩ ∧
    (18446744073709551615 + 1) % USIZE = 0 ∧
    SignedBytes.extract_signed_data SignedBytes.overflowInput
      ⟨18446744073709551615, 1, 0, 0⟩ = none ∧
    SignedBytes.get_signature_der SignedBytes.overflowInput = none :=
  ⟨rfl, rfl, rfl, rfl⟩

/-- C6 counterexample: five integers appear inside the ByteRange brackets,
yet `parse_byte_range` succeeds (the claim says it must return an error when
more than four integers appear). -/
theorem C6_counterexample :
    SignedBytes.locateByteRangeBody (strBytes "/ByteRange[1 1 1 1 1]") =
      .ok (strBytes "1 1 1 1 1") ∧
    ((splitWhitespace ("1 1 1 1 1".toList)).filterMap parseUsize).length = 5 ∧
    SignedBytes.parse_byte_range (strBytes "/ByteRange[1 1 1 1 1]") =
      .ok ⟨1, 1, 1, 1⟩ :=
  ⟨rfl, rfl, rfl⟩

/-- C6 (amended): ByteRange parsing locates the first `/ByteRange`, the
following brackets, and parses whitespace-separated decimal integers between
them, keeping only the first four; it errors when fewer than four integers
appear (extra integers are ignored), and errors when either offset plus
length, computed modulo 2^64, exceeds the file length. -/
theorem C6_parse_byte_range (pdf_bytes body : List Nat) (chars : List Char)
    (hloc : SignedBytes.locateByteRangeBody pdf_bytes = .ok body)
    (hdec : utf8Decode? body = some chars) :
    (((splitWhitespace chars).filterMap parseUsize).length < 4 →
      SignedBytes.parse_byte_range pdf_bytes = .error .InvalidByteRangeCount) ∧
    (∀ o1 l1 o2 l2 rest,
      (splitWhitespace chars).filterMap parseUsize = o1 :: l1 :: o2 :: l2 :: rest →
      SignedBytes.parse_byte_range pdf_bytes =
        if (o1 + l1) % USIZE > pdf_bytes.length ∨
            (o2 + l2) % USIZE > pdf_bytes.length then
          .error .ByteRangeOutOfBounds
        else .ok ⟨o1, l1, o2, l2⟩) := by
  constructor
  · intro hlen
    simp only [SignedBytes.parse_byte_range, hloc, hdec]
    rcases h : (splitWhitespace chars).filterMap parseUsize with
      _ | ⟨a, _ | ⟨b, _ | ⟨c, _ | ⟨d, rest⟩⟩⟩⟩ <;> simp_all
    omega
  · intro o1 l1 o2 l2 rest h
    simp only [SignedBytes.parse_byte_range, hloc, hdec, h, List.take]

/-- C6 witness: the amended theorem applied to a concrete four-integer
ByteRange. -/
theorem C6_parse_byte_range_witness :
    SignedBytes.parse_byte_range (strBytes "/ByteRange[0 2 3 4]") =
      .ok ⟨0, 2, 3, 4⟩ := by
  have h := (C6_parse_byte_range (strBytes "/ByteRange[0 2 3 4]")
    (strBytes "0 2 3 4") ("0 2 3 4".toList) rfl rfl).2 0 2 3 4 [] rfl
  rw [h, if_neg]
  decide

namespace Nullifier

/-- Mirrors `NULLIFIER_DOMAIN` in circuits/lib/src/types.rs: the byte string
literal `b"zkpdf-nullifier-v0"`. -/
def NULLIFIER_DOMAIN : List Nat := strBytes "zkpdf-nullifier-v0"

/-- Mirrors `u32::to_be_bytes`: four big-endian bytes of a `u32` value. -/
def u32ToBeBytes (n : Nat) : List Nat :=
  [n / 2 ^ 24 % 256, n / 2 ^ 16 % 256, n / 2 ^ 8 % 256, n % 256]

/-- Mirrors `compute_nullifier` in circuits/lib/src/nullifier.rs.  The alloy
`keccak256` primitive is an external crate and enters as a parameter; the
preimage construction (domain tag, the three 32-byte hashes, the page byte,
the big-endian offset) is transcribed from the Rust body. -/
def compute_nullifier (keccak256 : List Nat → List Nat)
    (message_digest_hash signer_key_hash substring_hash : List Nat)
    (page_number : Nat) (offset : Nat) : List Nat :=
  keccak256 (NULLIFIER_DOMAIN ++ message_digest_hash ++ signer_key_hash ++
    substring_hash ++ [page_number] ++ u32ToBeBytes offset)

end Nullifier

namespace Extractor

/-- Mirrors `PdfError` in extractor/src/types.rs. -/
inductive PdfError where
  | ParseError (msg : String)
  | DecompressionError
  deriving DecidableEq, Repr

/-- Mirrors `PdfObj` in extractor/src/types.rs.  `Number` holds an `f64` in
Rust, modelled as an exact rational (the parser builds values from decimal
digits; the claims checked here stay within exactly representable values).
`Dictionary` is a Rust `HashMap<String, PdfObj>`, modelled as a key-unique
association list with insertion overwriting; `Str` is the Rust `String`
variant (raw bytes). -/
inductive PdfObj where
  | Null
  | Boolean (b : Bool)
  | Number (q : ℚ)
  | Name (s : List Char)
  | Str (bytes : List Nat)
  | Array (xs : List PdfObj)
  | Dictionary (d : List (List Char × PdfObj))
  | Stream (dict : List (List Char × PdfObj)) (data : List Nat)
  | Reference (num : Nat) (gen : Nat)

/-- Lookup in the association-list model of `HashMap<String, PdfObj>`. -/
def dictGet (d : List (List Char × PdfObj)) (key : List Char) : Option PdfObj :=
  (d.find? (fun kv => kv.1 == key)).map (fun kv => kv.2)

/-- Insert with overwrite, the `HashMap::insert` model. -/
def dictInsert (d : List (List Char × PdfObj)) (k : List Char) (v : PdfObj) :
    List (List Char × PdfObj) :=
  if d.any (fun kv => kv.1 == k) then
    d.map (fun kv => if kv.1 == k then (k, v) else kv)
  else d ++ [(k, v)]

/-- PDF whitespace set of `skip_whitespace_and_comments`: NUL HT LF FF CR SP. -/
def isPdfWs (b : Nat) : Bool :=
  b == 0x00 || b == 0x09 || b == 0x0A || b == 0x0C || b == 0x0D || b == 0x20

/-- Helper of `skipWsComments`: the flag records being inside a `%` comment,
which ends at CR or LF (itself then consumed as whitespace). -/
def skipWsAux : List Nat → Nat → Bool → Nat
  | [], pos, _ => pos
  | b :: rest, pos, inComment =>
    if inComment then
      if b = 0x0A ∨ b = 0x0D then skipWsAux rest (pos + 1) false
      else skipWsAux rest (pos + 1) true
    else if b = 0x25 then skipWsAux rest (pos + 1) true
    else if isPdfWs b then skipWsAux rest (pos + 1) false
    else pos

/-- Mirrors `Parser::skip_whitespace_and_comments` in extractor/src/parser.rs. -/
def skipWsComments (data : List Nat) (pos : Nat) : Nat :=
  skipWsAux (data.drop pos) pos false

/-- Digit test `u8::is_ascii_digit`. -/
def isDigit (b : Nat) : Bool := 48 ≤ b && b ≤ 57

/-- Rust `i64::MAX`, the saturation bound of `parse_number`. -/
def i64MAX : Nat := 2 ^ 63 - 1

/-- One step of `saturating_mul(10).saturating_add(d)` on a non-negative
accumulator. -/
def satMul10Add (a d : Nat) : Nat := min (min (a * 10) i64MAX + d) i64MAX

/-- Digit scan with i64 saturation; returns (value, digit count, new pos). -/
def scanDigitsSatGo : List Nat → Nat → Nat → Nat → Nat × Nat × Nat
  | [], pos, acc, cnt => (acc, cnt, pos)
  | b :: rest, pos, acc, cnt =>
    if isDigit b then scanDigitsSatGo rest (pos + 1) (satMul10Add acc (b - 48)) (cnt + 1)
    else (acc, cnt, pos)

/-- Digit scan with wrapping arithmetic modulo `m` (`u32`/`u16` wrapping
`wrapping_mul(10).wrapping_add(d)`); returns (value, digit count, new pos). -/
def scanDigitsWrapGo (m : Nat) : List Nat → Nat → Nat → Nat → Nat × Nat × Nat
  | [], pos, acc, cnt => (acc, cnt, pos)
  | b :: rest, pos, acc, cnt =>
    if isDigit b then scanDigitsWrapGo m rest (pos + 1) ((acc * 10 + (b - 48)) % m) (cnt + 1)
    else (acc, cnt, pos)

/-- The rational value `(int as f64) + (frac as f64 / 10^cnt)`, negated when
a minus sign was read. -/
def mkFloat (negative : Bool) (intVal fracVal cnt : Nat) : ℚ :=
  let r : ℚ := (intVal : ℚ) + (fracVal : ℚ) / 10 ^ cnt
  if negative then -r else r

/-- Mirrors `Parser::parse_number`: optional sign, saturating integer digits,
optional fractional digits. -/
def parse_number (data : List Nat) (pos : Nat) : Except PdfError (PdfObj × Nat) :=
  let start := skipWsComments data pos
  if start ≥ data.length then .error (.ParseError "Unexpected EOF in number")
  else
    let b0 := data.getD start 0
    let negative := b0 = 0x2D
    let pos1 := if b0 = 0x2B ∨ b0 = 0x2D then start + 1 else start
    let s1 := scanDigitsSatGo (data.drop pos1) pos1 0 0
    let intVal := s1.1
    let pos2 := s1.2.2
    if pos2 < data.length ∧ data.getD pos2 0 = 0x2E then
      let s2 := scanDigitsSatGo (data.drop (pos2 + 1)) (pos2 + 1) 0 0
      .ok (.Number (mkFloat negative intVal s2.1 s2.2.1), s2.2.2)
    else
      .ok (.Number (mkFloat negative intVal 0 0), pos2)

/-- Delimiters and whitespace ending a name token in `parse_name`. -/
def isNameEnd (c : Nat) : Bool :=
  c == 0x2F || c == 0x25 || c == 0x28 || c == 0x29 || c == 0x3C || c == 0x3E ||
    c == 0x5B || c == 0x5D || c == 0x7B || c == 0x7D || isAsciiWs c

/-- Hex digit value (`Parser::hex_value`). -/
def hexValue (c : Nat) : Option Nat :=
  if 48 ≤ c ∧ c ≤ 57 then some (c - 48)
  else if 97 ≤ c ∧ c ≤ 102 then some (10 + (c - 97))
  else if 65 ≤ c ∧ c ≤ 70 then some (10 + (c - 65))
  else none

/-- Name byte loop of `parse_name`, including `#hh` escapes (which need two
further bytes present).  The fuel argument only serves the termination
checker; every step consumes input, so fuel beyond the input length never
runs out. -/
def parseNameGo : Nat → List Nat → Nat → List Nat → List Nat × Nat
  | 0, _, pos, acc => (acc.reverse, pos)
  | _ + 1, [], pos, acc => (acc.reverse, pos)
  | fuel + 1, c :: rest, pos, acc =>
    if isNameEnd c then (acc.reverse, pos)
    else if c = 0x23 then
      match rest with
      | h1 :: h2 :: rest2 =>
        match hexValue h1, hexValue h2 with
        | some n1, some n2 => parseNameGo fuel rest2 (pos + 3) ((n1 * 16 + n2) :: acc)
        | _, _ => parseNameGo fuel (h1 :: h2 :: rest2) (pos + 1) (c :: acc)
      | _ => parseNameGo fuel rest (pos + 1) (c :: acc)
    else parseNameGo fuel rest (pos + 1) (c :: acc)

/-- Rust `String::from_utf8` with the byte-as-code-point fallback of
`parse_name` (both arms of the Rust fallback map a byte to that char). -/
def bytesToStringLossyLatin (bytes : List Nat) : List Char :=
  match utf8Decode? bytes with
  | some s => s
  | none => bytes.map Char.ofNat

/-- Mirrors `Parser::parse_name`. -/
def parse_name (data : List Nat) (pos : Nat) : Except PdfError (PdfObj × Nat) :=
  if pos ≥ data.length ∨ data.getD pos 0 ≠ 0x2F then
    .error (.ParseError "Name must start with slash")
  else
    let r := parseNameGo (data.length + 1) (data.drop (pos + 1)) (pos + 1) []
    .ok (.Name (bytesToStringLossyLatin r.1), r.2)

/-- Literal-string loop of `parse_literal_string`: nesting depth, escapes,
line continuations and 1-3 digit octal escapes (value masked to a byte). -/
def parseLitGo : Nat → List Nat → Nat → Nat → List Nat → Except PdfError (List Nat × Nat)
  | 0, _, _, _, _ => .error (.ParseError "Unterminated literal string")
  | _ + 1, [], _, _, _ => .error (.ParseError "Unterminated literal string")
  | fuel + 1, b :: rest, pos, nesting, acc =>
    if b = 0x28 then parseLitGo fuel rest (pos + 1) (nesting + 1) (b :: acc)
    else if b = 0x29 then
      if nesting = 1 then .ok (acc.reverse, pos + 1)
      else parseLitGo fuel rest (pos + 1) (nesting - 1) (b :: acc)
    else if b = 0x5C then
      match rest with
      | [] => .error (.ParseError "Unterminated literal string")
      | next :: rest2 =>
        if next = 0x6E then parseLitGo fuel rest2 (pos + 2) nesting (0x0A :: acc)
        else if next = 0x72 then parseLitGo fuel rest2 (pos + 2) nesting (0x0D :: acc)
        else if next = 0x74 then parseLitGo fuel rest2 (pos + 2) nesting (0x09 :: acc)
        else if next = 0x62 then parseLitGo fuel rest2 (pos + 2) nesting (0x08 :: acc)
        else if next = 0x66 then parseLitGo fuel rest2 (pos + 2) nesting (0x0C :: acc)
        else if next = 0x28 ∨ next = 0x29 ∨ next = 0x5C then
          parseLitGo fuel rest2 (pos + 2) nesting (next :: acc)
        else if next = 0x0D then
          match rest2 with
          | 0x0A :: rest3 => parseLitGo fuel rest3 (pos + 3) nesting acc
          | _ => parseLitGo fuel rest2 (pos + 2) nesting acc
        else if next = 0x0A then parseLitGo fuel rest2 (pos + 2) nesting acc
        else if 0x30 ≤ next ∧ next ≤ 0x37 then
          match rest2 with
          | d2 :: rest3 =>
            if 0x30 ≤ d2 ∧ d2 ≤ 0x37 then
              match rest3 with
              | d3 :: rest4 =>
                if 0x30 ≤ d3 ∧ d3 ≤ 0x37 then
                  parseLitGo fuel rest4 (pos + 4) nesting
                    ((((next - 48) * 64 + (d2 - 48) * 8 + (d3 - 48)) % 256) :: acc)
                else
                  parseLitGo fuel rest3 (pos + 3) nesting
                    ((((next - 48) * 8 + (d2 - 48)) % 256) :: acc)
              | [] =>
                parseLitGo fuel rest3 (pos + 3) nesting
                  ((((next - 48) * 8 + (d2 - 48)) % 256) :: acc)
            else parseLitGo fuel rest2 (pos + 2) nesting (((next - 48) % 256) :: acc)
          | [] => parseLitGo fuel rest2 (pos + 2) nesting (((next - 48) % 256) :: acc)
        else parseLitGo fuel rest2 (pos + 2) nesting (next :: acc)
    else parseLitGo fuel rest (pos + 1) nesting (b :: acc)

/-- Mirrors `Parser::parse_literal_string`. -/
def parse_literal_string (data : List Nat) (pos : Nat) :
    Except PdfError (PdfObj × Nat) :=
  if pos ≥ data.length ∨ data.getD pos 0 ≠ 0x28 then
    .error (.ParseError "String must start with left paren")
  else
    match parseLitGo (data.length + 1) (data.drop (pos + 1)) (pos + 1) 1 [] with
    | .error e => .error e
    | .ok (bytes, pos1) => .ok (.Str bytes, pos1)

/-- Hex-string loop of `parse_hex_string`.  `mode` 0 reads hex digits, 1 is
inside `skip_whitespace_and_comments`, 2 is inside a comment; reaching the
end of input without a closing bracket still succeeds, padding an odd nibble
to the high half of a byte. -/
def parseHexGo : Nat → List Nat → Nat → Option Nat → List Nat → Nat →
    Except PdfError (List Nat × Nat)
  | 0, _, pos, nibble, acc, _ =>
    .ok ((match nibble with
      | some v => (v * 16) :: acc
      | none => acc).reverse, pos)
  | _ + 1, [], pos, nibble, acc, _ =>
    .ok ((match nibble with
      | some v => (v * 16) :: acc
      | none => acc).reverse, pos)
  | fuel + 1, b :: rest, pos, nibble, acc, mode =>
    if mode = 2 then
      if b = 0x0A ∨ b = 0x0D then parseHexGo fuel rest (pos + 1) nibble acc 1
      else parseHexGo fuel rest (pos + 1) nibble acc 2
    else if mode = 1 then
      if b = 0x25 then parseHexGo fuel rest (pos + 1) nibble acc 2
      else if isPdfWs b then parseHexGo fuel rest (pos + 1) nibble acc 1
      else if b = 0x3E then
        .ok ((match nibble with
          | some v => (v * 16) :: acc
          | none => acc).reverse, pos + 1)
      else
        match hexValue b with
        | some v =>
          match nibble with
          | none => parseHexGo fuel rest (pos + 1) (some v) acc 0
          | some hi => parseHexGo fuel rest (pos + 1) none ((hi * 16 + v) :: acc) 0
        | none => .error (.ParseError "Invalid character in hex string")
    else
      if b = 0x3E then
        .ok ((match nibble with
          | some v => (v * 16) :: acc
          | none => acc).reverse, pos + 1)
      else if isAsciiWs b ∨ b = 0x25 then parseHexGo fuel (b :: rest) pos nibble acc 1
      else
        match hexValue b with
        | some v =>
          match nibble with
          | none => parseHexGo fuel rest (pos + 1) (some v) acc 0
          | some hi => parseHexGo fuel rest (pos + 1) none ((hi * 16 + v) :: acc) 0
        | none => .error (.ParseError "Invalid character in hex string")

/-- Mirrors `Parser::parse_hex_string`. -/
def parse_hex_string (data : List Nat) (pos : Nat) : Except PdfError (PdfObj × Nat) :=
  if pos ≥ data.length ∨ data.getD pos 0 ≠ 0x3C ∨
      (pos + 1 < data.length ∧ data.getD (pos + 1) 0 = 0x3C) then
    .error (.ParseError "Hex string must start with one angle bracket")
  else
    match parseHexGo (2 * data.length + 2) (data.drop (pos + 1)) (pos + 1) none [] 0 with
    | .error e => .error e
    | .ok (bytes, pos1) => .ok (.Str bytes, pos1)

/-- Mirrors `Parser::remaining_starts_with`: the keyword must match and be
followed by end of input, whitespace or a delimiter. -/
def remaining_starts_with (data : List Nat) (pos : Nat) (seq : List Nat) : Bool :=
  let endPos := pos + seq.length
  if endPos > data.length then false
  else if (data.drop pos).take seq.length ≠ seq then false
  else if endPos < data.length then
    let next := data.getD endPos 0
    isAsciiWs next || next == 0x2F || next == 0x3C || next == 0x3E ||
      next == 0x5B || next == 0x5D || next == 0x28 || next == 0x29
  else true

/-- Skip of the unrecognised-token arm of `parse_value`: advance to the next
ASCII whitespace byte. -/
def skipToAsciiWsGo : List Nat → Nat → Nat
  | [], pos => pos
  | b :: rest, pos => if isAsciiWs b then pos else skipToAsciiWsGo rest (pos + 1)

mutual

/-- Mirrors `Parser::parse_value` in extractor/src/parser.rs.  The fuel
argument only bounds the mutual recursion through arrays and dictionaries
(the Rust recursion consumes input on every nested call); with fuel larger
than the input length the two behave identically. -/
def parse_value : Nat → List Nat → Nat → Except PdfError (PdfObj × Nat)
  | 0, _, _ => .error (.ParseError "recursion fuel exhausted")
  | fuel + 1, data, pos =>
    let pos0 := skipWsComments data pos
    if pos0 ≥ data.length then .error (.ParseError "Unexpected EOF while parsing value")
    else
      let byte := data.getD pos0 0
      if byte = 0x3C then
        if pos0 + 1 < data.length ∧ data.getD (pos0 + 1) 0 = 0x3C then
          parse_dictionary fuel data (pos0 + 2) []
        else parse_hex_string data pos0
      else if byte = 0x5B then parse_array fuel data (pos0 + 1) []
      else if byte = 0x28 then parse_literal_string data pos0
      else if byte = 0x2F then parse_name data pos0
      else if byte = 0x74 ∨ byte = 0x66 ∨ byte = 0x6E then
        if remaining_starts_with data pos0 (strBytes "true") then
          .ok (.Boolean true, pos0 + 4)
        else if remaining_starts_with data pos0 (strBytes "false") then
          .ok (.Boolean false, pos0 + 5)
        else if remaining_starts_with data pos0 (strBytes "null") then
          .ok (.Null, pos0 + 4)
        else .error (.ParseError "Unexpected keyword")
      else if byte = 0x2B ∨ byte = 0x2D ∨ byte = 0x2E ∨ (0x30 ≤ byte ∧ byte ≤ 0x39) then
        let neg := byte = 0x2D
        let pos1 := if byte = 0x2B ∨ byte = 0x2D then pos0 + 1 else pos0
        let s1 := scanDigitsWrapGo (2 ^ 32) (data.drop pos1) pos1 0 0
        let obj_num := s1.1
        let digits_count := s1.2.1
        let pos2 := s1.2.2
        if ¬(digits_count > 0 ∧ (pos2 ≥ data.length ∨ data.getD pos2 0 ≠ 0x2E)) then
          parse_number data pos0
        else
          let pos3 := skipWsComments data pos2
          if pos3 < data.length ∧ isDigit (data.getD pos3 0) then
            let s2 := scanDigitsWrapGo (2 ^ 16) (data.drop pos3) pos3 0 0
            let pos5 := skipWsComments data s2.2.2
            if s2.2.1 > 0 ∧ pos5 < data.length ∧ data.getD pos5 0 = 0x52 then
              .ok (.Reference obj_num s2.1, pos5 + 1)
            else
              .ok (.Number (if neg then -(obj_num : ℚ) else (obj_num : ℚ)), pos2)
          else
            .ok (.Number (if neg then -(obj_num : ℚ) else (obj_num : ℚ)), pos2)
      else
        .ok (.Null, skipToAsciiWsGo (data.drop pos0) pos0)

/-- The array loop inside `parse_value` (case of a left square bracket). -/
def parse_array : Nat → List Nat → Nat → List PdfObj → Except PdfError (PdfObj × Nat)
  | 0, _, _, _ => .error (.ParseError "recursion fuel exhausted")
  | fuel + 1, data, pos, acc =>
    let pos0 := skipWsComments data pos
    if pos0 ≥ data.length then .error (.ParseError "Unterminated array")
    else if data.getD pos0 0 = 0x5D then .ok (.Array acc.reverse, pos0 + 1)
    else
      match parse_value fuel data pos0 with
      | .error e => .error e
      | .ok (v, pos1) => parse_array fuel data pos1 (v :: acc)

/-- Mirrors `Parser::parse_dictionary` (the initial `<<` already consumed). -/
def parse_dictionary : Nat → List Nat → Nat → List (List Char × PdfObj) →
    Except PdfError (PdfObj × Nat)
  | 0, _, _, _ => .error (.ParseError "recursion fuel exhausted")
  | fuel + 1, data, pos, acc =>
    let pos0 := skipWsComments data pos
    if pos0 < data.length ∧ data.getD pos0 0 = 0x3E then
      if pos0 + 1 < data.length ∧ data.getD (pos0 + 1) 0 = 0x3E then
        .ok (.Dictionary acc, pos0 + 2)
      else .error (.ParseError "Malformed dictionary end")
    else if pos0 ≥ data.length then .error (.ParseError "Dictionary key is not a name")
    else if data.getD pos0 0 ≠ 0x2F then
      if remaining_starts_with data pos0 (strBytes ">>") then .ok (.Dictionary acc, pos0 + 2)
      else parse_dictionary fuel data (pos0 + 1) acc
    else
      match parse_name data pos0 with
      | .error e => .error e
      | .ok (keyObj, pos1) =>
        match keyObj with
        | .Name key =>
          let pos2 := skipWsComments data pos1
          match parse_value fuel data pos2 with
          | .error e => .error e
          | .ok (v, pos3) => parse_dictionary fuel data pos3 (dictInsert acc key v)
        | _ => .error (.ParseError "Invalid dictionary key")

end

/-- Mirrors the trailer fallback loop of `parse_pdf` (extractor/src/lib.rs
lines 581-592): walk the object table values and take the first stream whose
dictionary has `/Type` `XRef` and a `/Root` entry.  `values` is the sequence
`objects.values()` yields; Rust's `HashMap` fixes no such order. -/
def findXrefTrailer (values : List PdfObj) : Option (List (List Char × PdfObj)) :=
  values.findSome? (fun obj =>
    match obj with
    | .Stream dict _ =>
      match dictGet dict ("Type".toList) with
      | some (.Name t) =>
        if t == "XRef".toList && (dictGet dict ("Root".toList)).isSome then some dict
        else none
      | _ => none
    | _ => none)

/-- First XRef stream of the order-dependence example: `/Root` is 1 0 R. -/
def xrefStreamA : PdfObj :=
  .Stream [("Type".toList, .Name ("XRef".toList)), ("Root".toList, .Reference 1 0)] []

/-- Second XRef stream of the order-dependence example: `/Root` is 2 0 R. -/
def xrefStreamB : PdfObj :=
  .Stream [("Type".toList, .Name ("XRef".toList)), ("Root".toList, .Reference 2 0)] []

end Extractor

namespace CMap

/-- The map built by `parse_cmap` (`BTreeMap<u32, String>` collected into a
`HashMap`), modelled as a key-unique association list. -/
abbrev CMapT := List (Nat × List Char)

/-- Map insertion (`BTreeMap::insert` with overwrite), modelled by
prepending: `cmapGet` takes the first match, so the new binding shadows any
old one and the model is observationally the Rust map. -/
def cmapInsert (m : CMapT) (k : Nat) (v : List Char) : CMapT := (k, v) :: m

/-- Map lookup. -/
def cmapGet (m : CMapT) (k : Nat) : Option (List Char) :=
  (m.find? (fun kv => kv.1 == k)).map (fun kv => kv.2)

/-- The token `format!("<{}{}", current, ">")` of `split_hex_values`, with
`current` accumulated in reverse. -/
def mkBracketed (currentRev : List Char) : List Char :=
  '<' :: currentRev.reverse ++ ['>']

/-- Mirrors the character loop of `split_hex_values` in extractor/src/cmap.rs;
`currentRev` holds the pending token reversed, `res` the output reversed. -/
def splitHexGo : List Char → List Char → Bool → List (List Char) → List (List Char)
  | [], currentRev, in_bracket, res =>
    if in_bracket ∧ ¬currentRev.isEmpty then (mkBracketed currentRev :: res).reverse
    else if ¬currentRev.isEmpty then (currentRev.reverse :: res).reverse
    else res.reverse
  | ch :: rest, currentRev, in_bracket, res =>
    if ch = '<' then
      if in_bracket ∧ ¬currentRev.isEmpty then
        splitHexGo rest [] true (mkBracketed currentRev :: res)
      else splitHexGo rest currentRev true res
    else if ch = '>' then
      if in_bracket then splitHexGo rest [] false (mkBracketed currentRev :: res)
      else splitHexGo rest currentRev in_bracket res
    else if ch = '[' ∨ ch = ']' then splitHexGo rest currentRev in_bracket ([ch] :: res)
    else if ch = ' ' ∨ ch = '\t' then
      if in_bracket then splitHexGo rest (ch :: currentRev) in_bracket res
      else splitHexGo rest currentRev in_bracket res
    else
      if in_bracket then splitHexGo rest (ch :: currentRev) in_bracket res
      else if ¬(rustCharIsWhitespace ch) then splitHexGo rest (ch :: currentRev) in_bracket res
      else splitHexGo rest currentRev in_bracket res

/-- Mirrors `split_hex_values`. -/
def split_hex_values (line : List Char) : List (List Char) := splitHexGo line [] false []

/-- Rust `str::trim_matches` with the angle-bracket predicate. -/
def trimAngles (s : List Char) : List Char :=
  ((s.dropWhile (fun c => c = '<' ∨ c = '>')).reverse.dropWhile
    (fun c => c = '<' ∨ c = '>')).reverse

/-- Rust `uN::from_str_radix(s, 16)` with exclusive bound `bound`: optional
leading plus, one or more hex digits, in-range value. -/
def fromStrRadix16 (bound : Nat) (s : List Char) : Option Nat :=
  let s1 := match s with
    | '+' :: rest => rest
    | _ => s
  if s1.isEmpty then none
  else
    (s1.foldl (fun acc c =>
      acc.bind (fun a => (SignedBytes.hexDigitVal? c).map (fun d => a * 16 + d)))
      (some 0)).bind (fun v => if v < bound then some v else none)

/-- Byte chunks of four (`slice::chunks(4)`). -/
def chunk4 : List Nat → List (List Nat)
  | a :: b :: c :: d :: rest => [a, b, c, d] :: chunk4 rest
  | [] => []
  | l => [l]

/-- Rust `char::from_u32(u)` on a `u32`; `none` for surrogates and values
past U+10FFFF. -/
def charFromU32? (u : Nat) : Option Char :=
  if u < 0x110000 ∧ ¬(0xD800 ≤ u ∧ u ≤ 0xDFFF) then some (Char.ofNat u) else none

/-- The chunk loop of `parse_cmap_hex_to_string`: 4-hex-digit UTF-16 code
units, surrogate pairs combined, lone surrogates mapped to U+FFFD.  The fuel
argument only serves the termination checker. -/
def cmapHexGo : Nat → List (List Nat) → List Char → Option (List Char)
  | 0, _, out => some out.reverse
  | _ + 1, [], out => some out.reverse
  | fuel + 1, chunk :: rest, out =>
    if chunk.length < 4 then some out.reverse
    else
      match utf8Decode? chunk with
      | none => none
      | some part =>
        match fromStrRadix16 (2 ^ 16) part with
        | none => none
        | some code =>
          if 0xD800 ≤ code ∧ code ≤ 0xDBFF then
            match rest with
            | next :: rest2 =>
              match utf8Decode? next with
              | none => none
              | some next_part =>
                match fromStrRadix16 (2 ^ 16) next_part with
                | some low =>
                  if 0xDC00 ≤ low ∧ low ≤ 0xDFFF then
                    cmapHexGo fuel rest2
                      (Char.ofNat (0x10000 + (code - 0xD800) * 1024 + (low - 0xDC00)) :: out)
                  else cmapHexGo fuel (next :: rest2) (Char.ofNat 0xFFFD :: out)
                | none => cmapHexGo fuel (next :: rest2) (Char.ofNat 0xFFFD :: out)
            | [] => cmapHexGo fuel [] (Char.ofNat 0xFFFD :: out)
          else if 0xDC00 ≤ code ∧ code ≤ 0xDFFF then
            cmapHexGo fuel rest (Char.ofNat 0xFFFD :: out)
          else
            match charFromU32? code with
            | some ch => cmapHexGo fuel rest (ch :: out)
            | none => cmapHexGo fuel rest (Char.ofNat 0xFFFD :: out)

/-- Mirrors `parse_cmap_hex_to_string`; the hex text's bytes are chunked in
fours, as `hex.as_bytes().chunks(4)` does. -/
def parse_cmap_hex_to_string (hex : List Char) : Option (List Char) :=
  let bytes := utf8Encode hex
  if bytes.isEmpty then some []
  else if bytes.length % 4 ≠ 0 then none
  else cmapHexGo (bytes.length + 1) (chunk4 bytes) []

/-- Rust `str::trim` at both ends. -/
def rustTrim (s : List Char) : List Char :=
  ((s.dropWhile rustCharIsWhitespace).reverse.dropWhile rustCharIsWhitespace).reverse

/-- Rust `str::trim_end`. -/
def rustTrimEnd (s : List Char) : List Char :=
  (s.reverse.dropWhile rustCharIsWhitespace).reverse

/-- One `str::lines` line, with the carriage return before the newline
stripped. -/
def stripCR (l : List Char) : List Char :=
  match l.reverse with
  | '\r' :: restRev => restRev.reverse
  | _ => l

/-- Helper of `rustLines`, accumulating the current line reversed. -/
def rustLinesGo : List Char → List Char → List (List Char)
  | [], cur => if cur.isEmpty then [] else [stripCR cur.reverse]
  | '\n' :: rest, cur => stripCR cur.reverse :: rustLinesGo rest []
  | c :: rest, cur => rustLinesGo rest (c :: cur)

/-- Rust `str::lines`. -/
def rustLines (s : List Char) : List (List Char) := rustLinesGo s []

/-- The u32 wrapping increment of the last destination code
(`*last += 1` on a `Vec<u32>`; release builds wrap). -/
def incLastWrap (l : List Nat) : List Nat :=
  match l.reverse with
  | last :: restRev => ((last + 1) % 2 ^ 32 :: restRev).reverse
  | [] => []

/-- `char::from_u32(u).unwrap_or('?')`. -/
def charFromU32OrQ (u : Nat) : Char :=
  match charFromU32? u with
  | some ch => ch
  | none => '?'

/-- The `for code in start_code..=end_code` loop of the bfrange range
variant: insert the current destination, then increment its final code
point; `cnt` is the number of remaining codes. -/
def bfrangeLoop : Nat → Nat → List Nat → CMapT → CMapT
  | 0, _, _, m => m
  | cnt + 1, code, dcodes, m =>
    bfrangeLoop cnt (code + 1) (incLastWrap dcodes)
      (cmapInsert m code (dcodes.map charFromU32OrQ))

/-- The bracket walk of the bfrange `[ ]` variant: angle tokens map
successive codes, other tokens are skipped, a closing square bracket or a
code past `endc` stops. -/
def bracketLoop : List (List Char) → Nat → Nat → CMapT → CMapT
  | [], _, _, m => m
  | tok :: rest, cur, endc, m =>
    if tok = ("]".toList) then m
    else if tok.head? = some '<' then
      let m1 := match parse_cmap_hex_to_string (trimAngles tok) with
        | some d => cmapInsert m cur d
        | none => m
      let cur1 := (cur + 1) % 2 ^ 32
      if cur1 > endc then m1 else bracketLoop rest cur1 endc m1
    else bracketLoop rest cur endc m

/-- One bfchar line: `<src> <dst>`. -/
def bfcharLine (l : List Char) (m : CMapT) : CMapT :=
  if l.head? = some '<' then
    match split_hex_values l with
    | p0 :: p1 :: _ =>
      match fromStrRadix16 (2 ^ 32) (trimAngles p0) with
      | some src_code =>
        match parse_cmap_hex_to_string (trimAngles p1) with
        | some dst_str => cmapInsert m src_code dst_str
        | none => m
      | none => m
    | _ => m
  else m

/-- One bfrange line: `<start> <end> <dst>` or `<start> <end> [<d1> …]`. -/
def bfrangeLine (l : List Char) (m : CMapT) : CMapT :=
  if l.head? = some '<' then
    match split_hex_values l with
    | p0 :: p1 :: p2 :: restParts =>
      match fromStrRadix16 (2 ^ 32) (trimAngles p0),
          fromStrRadix16 (2 ^ 32) (trimAngles p1) with
      | some start_code, some end_code =>
        if p2 == "[".toList then bracketLoop restParts start_code end_code m
        else
          match parse_cmap_hex_to_string (trimAngles p2) with
          | some dest_start_str =>
            bfrangeLoop (end_code + 1 - start_code) start_code
              (dest_start_str.map Char.toNat) m
          | none => m
      | _, _ => m
    | _ => m
  else m

mutual

/-- The outer line loop of `parse_cmap` (extractor/src/cmap.rs lines 79-164):
a trimmed line ending in `beginbfchar` or `beginbfrange` enters the matching
section.  The closing `endbfchar`/`endbfrange` line, left to the outer loop
by the Rust `while`, matches neither `begin` marker (no string ends in both),
so consuming it here is equivalent. -/
def cmapMain : List (List Char) → CMapT → CMapT
  | [], m => m
  | line :: rest, m =>
    let l := rustTrim line
    if (strBytes "beginbfchar").isSuffixOf (utf8Encode l) then cmapBfchar rest m
    else if (strBytes "beginbfrange").isSuffixOf (utf8Encode l) then cmapBfrange rest m
    else cmapMain rest m

/-- The bfchar section loop. -/
def cmapBfchar : List (List Char) → CMapT → CMapT
  | [], m => m
  | line :: rest, m =>
    if (strBytes "endbfchar").isSuffixOf (utf8Encode (rustTrimEnd line)) then
      cmapMain rest m
    else cmapBfchar rest (bfcharLine (rustTrim line) m)

/-- The bfrange section loop. -/
def cmapBfrange : List (List Char) → CMapT → CMapT
  | [], m => m
  | line :: rest, m =>
    if (strBytes "endbfrange").isSuffixOf (utf8Encode (rustTrimEnd line)) then
      cmapMain rest m
    else cmapBfrange rest (bfrangeLine (rustTrim line) m)

end

/-- Mirrors `parse_cmap` after the UTF-8 (or lossy) text decode: split into
lines and run the section state machine over an empty map. -/
def parse_cmap_text (text : List Char) : CMapT := cmapMain (rustLines text) []

/-- UTF-16 code units of a character sequence. -/
def utf16Units (s : List Char) : List Nat :=
  s.flatMap (fun c =>
    if c.toNat < 0x10000 then [c.toNat]
    else [0xD800 + (c.toNat - 0x10000) / 1024, 0xDC00 + (c.toNat - 0x10000) % 1024])

/-- Increment of the final UTF-16 code unit, the operation the claim
ascribes to the bfrange range variant. -/
def incLastUnit (units : List Nat) : List Nat :=
  match units.reverse with
  | last :: restRev => ((last + 1) :: restRev).reverse
  | [] => []

/-- The bfrange example text of the C10 counterexample. -/
def c10text : List Char :=
  ("beginbfrange\n<00> <01> <D800DFFF>\nendbfrange").toList

theorem cmapGet_cmapInsert_self (m : CMapT) (k : Nat) (v : List Char) :
    cmapGet (cmapInsert m k v) k = some v := by
  simp [cmapInsert, cmapGet]

theorem cmapGet_cmapInsert_ne (m : CMapT) (k kp : Nat) (v : List Char)
    (h : kp ≠ k) : cmapGet (cmapInsert m k v) kp = cmapGet m kp := by
  have hkb : (k == kp) = false := by simpa using (Ne.symm h)
  simp [cmapInsert, cmapGet, List.find?_cons, hkb]

theorem bfrangeLoop_get_lt (cnt : Nat) :
    ∀ (code : Nat) (dcodes : List Nat) (m : CMapT) (k : Nat), k < code →
      cmapGet (bfrangeLoop cnt code dcodes m) k = cmapGet m k := by
  induction cnt with
  | zero => intro code dcodes m k _; rfl
  | succ cnt ih =>
    intro code dcodes m k hk
    show cmapGet (bfrangeLoop cnt (code + 1) (incLastWrap dcodes)
      (cmapInsert m code (dcodes.map charFromU32OrQ))) k = cmapGet m k
    rw [ih (code + 1) _ _ k (by omega)]
    exact cmapGet_cmapInsert_ne m code k _ (by omega)

theorem bfrangeLoop_get (cnt : Nat) :
    ∀ (code : Nat) (dcodes : List Nat) (m : CMapT) (i : Nat), i < cnt →
      cmapGet (bfrangeLoop cnt code dcodes m) (code + i) =
        some ((incLastWrap^[i] dcodes).map charFromU32OrQ) := by
  induction cnt with
  | zero => intro code dcodes m i h; omega
  | succ cnt ih =>
    intro code dcodes m i hi
    show cmapGet (bfrangeLoop cnt (code + 1) (incLastWrap dcodes)
      (cmapInsert m code (dcodes.map charFromU32OrQ))) (code + i) = _
    cases i with
    | zero =>
      simp only [Nat.add_zero]
      rw [bfrangeLoop_get_lt cnt (code + 1) _ _ code (by omega),
        cmapGet_cmapInsert_self, Function.iterate_zero_apply]
    | succ j =>
      have h1 : code + (j + 1) = (code + 1) + j := by omega
      rw [h1, ih (code + 1) (incLastWrap dcodes) _ j (by omega),
        Function.iterate_succ_apply]

/-- An angle token of the bracket variant cannot be the closing bracket. -/
theorem angleTok_ne_close (tok : List Char) (h : tok.head? = some '<') :
    tok ≠ ("]".toList) := by
  intro he
  rw [he] at h
  simp [show ("]".toList) = [']'] from rfl] at h

theorem bracketLoop_get_lt (toks : List (List Char)) :
    ∀ (cur endc : Nat) (m : CMapT) (k : Nat), k < cur → cur ≤ endc →
      endc < 2 ^ 32 - 1 →
      cmapGet (bracketLoop toks cur endc m) k = cmapGet m k := by
  induction toks with
  | nil => intro cur endc m k _ _ _; rfl
  | cons tok rest ih =>
    intro cur endc m k hk hc he
    by_cases hcl : tok = ("]".toList)
    · simp [bracketLoop, hcl]
    · by_cases hh : tok.head? = some '<'
      · have hwrap : (cur + 1) % 2 ^ 32 = cur + 1 := Nat.mod_eq_of_lt (by omega)
        have hstep : ∀ m1 : CMapT, cmapGet m1 k = cmapGet m k →
            cmapGet (if (cur + 1) % 2 ^ 32 > endc then m1
              else bracketLoop rest ((cur + 1) % 2 ^ 32) endc m1) k = cmapGet m k := by
          intro m1 hm1
          rw [hwrap]
          by_cases hgt : cur + 1 > endc
          · rw [if_pos hgt]; exact hm1
          · rw [if_neg hgt, ih (cur + 1) endc m1 k (by omega) (by omega) he]
            exact hm1
        cases hp : parse_cmap_hex_to_string (trimAngles tok) with
        | none =>
          simp only [bracketLoop, if_neg hcl, if_pos hh, hp]
          exact hstep m rfl
        | some d =>
          simp only [bracketLoop, if_neg hcl, if_pos hh, hp]
          exact hstep (cmapInsert m cur d)
            (cmapGet_cmapInsert_ne m cur k d (by omega))
      · simp only [bracketLoop, if_neg hcl, if_neg hh]
        exact ih cur endc m k hk hc he

theorem bracketLoop_get (toks : List (List Char)) :
    ∀ (dsts moreToks : List (List Char)) (cur endc : Nat) (m : CMapT),
      List.Forall₂ (fun tok dst => tok.head? = some '<' ∧
        parse_cmap_hex_to_string (trimAngles tok) = some dst) toks dsts →
      cur + toks.length ≤ endc + 1 → endc < 2 ^ 32 - 1 →
      ∀ i d, dsts[i]? = some d →
        cmapGet (bracketLoop (toks ++ ("]".toList) :: moreToks) cur endc m)
          (cur + i) = some d := by
  induction toks with
  | nil =>
    intro dsts moreToks cur endc m hf _ _ i d hget
    cases hf
    simp at hget
  | cons tok rest ih =>
    intro dsts moreToks cur endc m hf hlen he i d hget
    obtain ⟨dst0, drest, hd, htl, rfl⟩ :
        ∃ dst0 drest, (tok.head? = some '<' ∧
          parse_cmap_hex_to_string (trimAngles tok) = some dst0) ∧
          List.Forall₂ _ rest drest ∧ dsts = dst0 :: drest := by
      cases hf with
      | cons h1 h2 => exact ⟨_, _, h1, h2, rfl⟩
    have hcur : cur ≤ endc := by
      simp only [List.length_cons] at hlen
      omega
    have hwrap : (cur + 1) % 2 ^ 32 = cur + 1 := Nat.mod_eq_of_lt (by omega)
    simp only [List.cons_append, bracketLoop, if_neg (angleTok_ne_close tok hd.1),
      if_pos hd.1, hd.2, hwrap]
    by_cases hgt : cur + 1 > endc
    · rw [if_pos hgt]
      have hrest : rest.length = 0 := by
        simp only [List.length_cons] at hlen
        omega
      have hdrest : drest = [] := by
        have hlen2 := htl.length_eq
        rw [List.eq_nil_of_length_eq_zero hrest] at htl
        cases htl
        rfl
      subst hdrest
      cases i with
      | zero =>
        simp only [List.getElem?_cons_zero, Option.some.injEq] at hget
        subst hget
        simp only [Nat.add_zero]
        rw [cmapGet_cmapInsert_self]
      | succ j => simp at hget
    · rw [if_neg hgt]
      cases i with
      | zero =>
        simp only [List.getElem?_cons_zero, Option.some.injEq] at hget
        subst hget
        simp only [Nat.add_zero]
        rw [bracketLoop_get_lt _ (cur + 1) endc _ cur (by omega) (by omega) he,
          cmapGet_cmapInsert_self]
      | succ j =>
        have h1 : cur + (j + 1) = (cur + 1) + j := by omega
        rw [h1]
        refine ih drest moreToks (cur + 1) endc _ htl ?_ he j d ?_
        · simp only [List.length_cons] at hlen
          omega
        · simpa using hget

end CMap

/-- C10 counterexample: the bfrange line `<00> <01> <D800DFFF>` has dstStart
U+103FF, whose UTF-16 units are D800 DFFF.  Incrementing the last UTF-16
code unit, as the claim states, gives units D800 E000, but the code
increments the code point, mapping code 01 to U+10400 with units D801 DC00. -/
theorem C10_counterexample :
    (CMap.cmapGet (CMap.parse_cmap_text CMap.c10text) 0).map CMap.utf16Units =
      some [0xD800, 0xDFFF] ∧
    (CMap.cmapGet (CMap.parse_cmap_text CMap.c10text) 1).map CMap.utf16Units =
      some [0xD801, 0xDC00] ∧
    CMap.incLastUnit [0xD800, 0xDFFF] = [0xD800, 0xE000] ∧
    ([0xD801, 0xDC00] : List Nat) ≠ [0xD800, 0xE000] := by
  refine ⟨by decide, by decide, by decide, by decide⟩

/-- C10 (amended): in the bfrange section the `<start> <end> <dstStart>`
variant maps code start+i to dstStart with its final Unicode code point
(scalar value) incremented i times (as a wrapping u32, invalid values
becoming a question mark) — not its final UTF-16 code unit — while the
`<start> <end> [..]` variant maps each code in the range to its
corresponding explicit per-code destination. -/
theorem C10_bfrange_semantics :
    (∀ (dcodes : List Nat) (start endc : Nat) (m : CMap.CMapT) (i : Nat),
      start + i ≤ endc →
      CMap.cmapGet (CMap.bfrangeLoop (endc + 1 - start) start dcodes m) (start + i) =
        some ((CMap.incLastWrap^[i] dcodes).map CMap.charFromU32OrQ)) ∧
    (∀ (toks dsts moreToks : List (List Char)) (cur endc : Nat) (m : CMap.CMapT),
      List.Forall₂ (fun tok dst => tok.head? = some '<' ∧
        CMap.parse_cmap_hex_to_string (CMap.trimAngles tok) = some dst) toks dsts →
      cur + toks.length ≤ endc + 1 → endc < 2 ^ 32 - 1 →
      ∀ i d, dsts[i]? = some d →
        CMap.cmapGet (CMap.bracketLoop (toks ++ ("]".toList) :: moreToks) cur endc m)
          (cur + i) = some d) := by
  constructor
  · intro dcodes start endc m i h
    exact CMap.bfrangeLoop_get _ start dcodes m i (by omega)
  · intro toks dsts moreToks cur endc m hf hl he i d hget
    exact CMap.bracketLoop_get toks dsts moreToks cur endc m hf hl he i d hget

/-- C10 witness: the amended semantics applied to a two-code range with
destination start `A` and to a one-entry bracket list mapping to `B`. -/
theorem C10_bfrange_semantics_witness :
    CMap.cmapGet (CMap.bfrangeLoop 2 0 [65] []) 1 =
      some ((CMap.incLastWrap^[1] [65]).map CMap.charFromU32OrQ) ∧
    CMap.cmapGet (CMap.bracketLoop (["<0042>".toList] ++ ("]".toList) :: []) 5 5 []) 5 =
      some ("B".toList) := by
  constructor
  · have h := C10_bfrange_semantics.1 [65] 0 1 [] 1 (by omega)
    simpa using h
  · have h := C10_bfrange_semantics.2 ["<0042>".toList] ["B".toList] [] 5 5 []
      (List.Forall₂.cons ⟨by decide, by decide⟩ List.Forall₂.nil)
      (by simp) (by norm_num) 0 ("B".toList) (by simp)
    simpa using h

/-- C8: the determinism claim fails at `parse_pdf`'s trailer fallback: the
same object table, iterated in the two orders a `HashMap` may yield across
two executions (its `RandomState` seed is per-process), selects different
trailer dictionaries, hence different `/Root` catalogs and different
outputs.  The two `values` sequences below are permutations of one another,
as `HashMap::values` of one table may be. -/
theorem C8_trailer_iteration_order :
    (Extractor.findXrefTrailer [Extractor.xrefStreamA, Extractor.xrefStreamB]).map
        (fun d => Extractor.dictGet d ("Root".toList)) =
      some (some (.Reference 1 0)) ∧
    (Extractor.findXrefTrailer [Extractor.xrefStreamB, Extractor.xrefStreamA]).map
        (fun d => Extractor.dictGet d ("Root".toList)) =
      some (some (.Reference 2 0)) ∧
    [Extractor.xrefStreamA, Extractor.xrefStreamB].Perm
      [Extractor.xrefStreamB, Extractor.xrefStreamA] ∧
    (Extractor.PdfObj.Reference 1 0 ≠ .Reference 2 0) :=
  ⟨rfl, rfl, List.Perm.swap _ _ _, by simp⟩

/-- C9: number and reference disambiguation by speculation: `10 0 R` parses
as a reference with object number 10 and generation 0; `10 0` parses as the
number 10 and, resumed, the number 0; `10` parses as the number 10; `10.5`
parses as the number 10.5. -/
theorem C9_number_reference_disambiguation :
    Extractor.parse_value 100 (strBytes "10 0 R") 0 =
      .ok (.Reference 10 0, 6) ∧
    Extractor.parse_value 100 (strBytes "10 0") 0 = .ok (.Number 10, 2) ∧
    Extractor.parse_value 100 (strBytes "10 0") 2 = .ok (.Number 0, 4) ∧
    Extractor.parse_value 100 (strBytes "10") 0 = .ok (.Number 10, 2) ∧
    Extractor.parse_value 100 (strBytes "10.5") 0 =
      .ok (.Number (21 / 2), 4) := by
  have h5 : Extractor.parse_value 100 (strBytes "10.5") 0 =
      .ok (.Number (Extractor.mkFloat false 10 5 1), 4) := rfl
  have hq : Extractor.mkFloat false 10 5 1 = 21 / 2 := by
    simp [Extractor.mkFloat]
    norm_num
  rw [hq] at h5
  have h1 : Extractor.parse_value 100 (strBytes "10 0") 0 =
      .ok (.Number ((10 : Nat) : ℚ), 2) := rfl
  have h2 : Extractor.parse_value 100 (strBytes "10 0") 2 =
      .ok (.Number ((0 : Nat) : ℚ), 4) := rfl
  have h3 : Extractor.parse_value 100 (strBytes "10") 0 =
      .ok (.Number ((10 : Nat) : ℚ), 2) := rfl
  refine ⟨rfl, ?_, ?_, ?_, h5⟩
  · rw [h1]; norm_num
  · rw [h2]; norm_num
  · rw [h3]; norm_num

namespace Core

/-- Mirrors `PdfSignatureResult` in signature-validator/src/types.rs. -/
structure PdfSignatureResult where
  is_valid : Bool
  message_digest : List Nat
  public_key : List Nat
  deriving DecidableEq, Repr

/-- Mirrors `PdfVerificationResult` in pdf-utils/core/src/lib.rs. -/
structure PdfVerificationResult where
  substring_matches : Bool
  signature : PdfSignatureResult
  deriving DecidableEq, Repr

/-- Mirrors `PdfVerifiedContent` in pdf-utils/core/src/lib.rs; pages are Rust
strings, modelled as character lists. -/
structure PdfVerifiedContent where
  pages : List (List Char)
  signature : PdfSignatureResult
  deriving DecidableEq, Repr

/-- Mirrors `verify_and_extract` in pdf-utils/core/src/lib.rs.  The two deep
components `verify_pdf_signature` and `extract_text` enter as parameters
`vps` and `et`; this definition transcribes the glue: map the signature
error, reject when `is_valid` is false, then extract text. -/
def verify_and_extract (vps : List Nat → Except String PdfSignatureResult)
    (et : List Nat → Except String (List (List Char)))
    (pdf_bytes : List Nat) : Except String PdfVerifiedContent :=
  match vps pdf_bytes with
  | .error e => .error ("signature verification error: " ++ e)
  | .ok signature =>
    if !signature.is_valid then .error "signature verification failed"
    else
      match et pdf_bytes with
      | .error e => .error ("text extraction error: " ++ e)
      | .ok pages => .ok ⟨pages, signature⟩

/-- Rust `str::get(offset..)` on a valid string: `some` suffix when the byte
offset lies on a character boundary (including the end), `none` otherwise. -/
def rustStrGetFrom : List Char → Nat → Option (List Char)
  | s, 0 => some s
  | [], _ + 1 => none
  | c :: rest, off + 1 =>
    if off + 1 < (utf8EncodeChar c).length then none
    else rustStrGetFrom rest (off + 1 - (utf8EncodeChar c).length)

/-- Mirrors `verify_text` in pdf-utils/core/src/lib.rs.  The substring check
is Rust `page_text.get(offset..).map(starts_with(sub_string)).unwrap_or(false)`;
`str::starts_with` on strings is byte-prefix, which on valid UTF-8 equals
character-list prefix.  The out-of-bounds error message keeps only its static
part. -/
def verify_text (vps : List Nat → Except String PdfSignatureResult)
    (et : List Nat → Except String (List (List Char)))
    (pdf_bytes : List Nat) (page_number : Nat) (sub_string : List Char)
    (offset : Nat) : Except String PdfVerificationResult :=
  match verify_and_extract vps et pdf_bytes with
  | .error e => .error e
  | .ok vc =>
    if vc.pages.length ≤ page_number then
      .error ("page " ++ toString page_number ++ " out of bounds")
    else
      let page_text := vc.pages.getD page_number []
      .ok ⟨((rustStrGetFrom page_text offset).map
        (fun slice => sub_string.isPrefixOf slice)).getD false, vc.signature⟩

end Core

@[simp]
theorem utf8Encode_nil : utf8Encode [] = [] := rfl

@[simp]
theorem utf8Encode_cons (c : Char) (s : List Char) :
    utf8Encode (c :: s) = utf8EncodeChar c ++ utf8Encode s := rfl

@[simp]
theorem utf8Encode_append (s t : List Char) :
    utf8Encode (s ++ t) = utf8Encode s ++ utf8Encode t := by
  simp [utf8Encode]

theorem utf8EncodeChar_length_pos (c : Char) : 0 < (utf8EncodeChar c).length := by
  unfold utf8EncodeChar
  split_ifs <;> simp

theorem char_toNat_lt (c : Char) : c.toNat < 1114112 := by
  have h := c.valid
  unfold Char.toNat
  rcases h with h | h
  · omega
  · omega

/-- Length of a UTF-8 sequence as determined by its lead byte. -/
def leadLen (b : Nat) : Nat :=
  if b < 0x80 then 1 else if b < 0xE0 then 2 else if b < 0xF0 then 3 else 4

theorem utf8EncodeChar_length_eq (c : Char) :
    (utf8EncodeChar c).length = leadLen ((utf8EncodeChar c).headD 0) := by
  have h := char_toNat_lt c
  by_cases h1 : c.toNat < 0x80
  · simp [utf8EncodeChar, h1, leadLen]
  · by_cases h2 : c.toNat < 0x800
    · simp only [utf8EncodeChar, h1, h2, if_false, if_true]
      simp only [List.length_cons, List.length_nil, List.headD_cons, leadLen]
      split_ifs <;> omega
    · by_cases h3 : c.toNat < 0x10000
      · simp only [utf8EncodeChar, h1, h2, h3, if_false, if_true]
        simp only [List.length_cons, List.length_nil, List.headD_cons, leadLen]
        split_ifs <;> omega
      · simp only [utf8EncodeChar, h1, h2, h3, if_false]
        simp only [List.length_cons, List.length_nil, List.headD_cons, leadLen]
        split_ifs <;> omega

theorem utf8EncodeChar_inj (a b : Char) (h : utf8EncodeChar a = utf8EncodeChar b) :
    a = b := by
  have ha := char_toNat_lt a
  have hb := char_toNat_lt b
  have hnat : a.toNat = b.toNat := by
    unfold utf8EncodeChar at h
    split_ifs at h <;> simp_all <;> omega
  calc a = Char.ofNat a.toNat := (Char.ofNat_toNat a).symm
    _ = Char.ofNat b.toNat := by rw [hnat]
    _ = b := Char.ofNat_toNat b

/-- Rust `str::get(offset..)` succeeds exactly at UTF-8 character boundaries,
returning the corresponding character suffix. -/
theorem rustStrGetFrom_eq_some_iff (s : List Char) :
    ∀ (off : Nat) (t : List Char),
      Core.rustStrGetFrom s off = some t ↔
        ∃ k, (utf8Encode (List.take k s)).length = off ∧ t = List.drop k s := by
  induction s with
  | nil =>
    intro off t
    cases off with
    | zero => simp [Core.rustStrGetFrom, eq_comm]
    | succ m => simp [Core.rustStrGetFrom]
  | cons c cs ih =>
    intro off t
    cases off with
    | zero =>
      simp only [Core.rustStrGetFrom, Option.some.injEq]
      constructor
      · intro h
        exact ⟨0, by simp, by simp [h.symm]⟩
      · rintro ⟨k, hk, ht⟩
        cases k with
        | zero => simpa [eq_comm] using ht
        | succ j =>
          exfalso
          simp only [List.take_succ_cons, utf8Encode_cons, List.length_append] at hk
          have := utf8EncodeChar_length_pos c
          omega
    | succ m =>
      by_cases hL : m + 1 < (utf8EncodeChar c).length
      · simp only [Core.rustStrGetFrom, if_pos hL]
        constructor
        · intro h
          exact absurd h (by simp)
        · rintro ⟨k, hk, ht⟩
          exfalso
          cases k with
          | zero => simp at hk
          | succ j =>
            simp only [List.take_succ_cons, utf8Encode_cons, List.length_append] at hk
            omega
      · simp only [Core.rustStrGetFrom, if_neg hL]
        rw [ih]
        constructor
        · rintro ⟨j, hj, ht⟩
          refine ⟨j + 1, ?_, by simpa using ht⟩
          simp only [List.take_succ_cons, utf8Encode_cons, List.length_append]
          omega
        · rintro ⟨k, hk, ht⟩
          cases k with
          | zero => simp at hk
          | succ j =>
            simp only [List.take_succ_cons, utf8Encode_cons, List.length_append] at hk
            exact ⟨j, by omega, by simpa using ht⟩

/-- Character-level drop corresponds to byte-level drop at the boundary. -/
theorem utf8Encode_drop (s : List Char) :
    ∀ k, utf8Encode (s.drop k) =
      (utf8Encode s).drop ((utf8Encode (s.take k)).length) := by
  induction s with
  | nil => intro k; simp
  | cons c cs ih =>
    intro k
    cases k with
    | zero => simp
    | succ j =>
      simp only [List.drop_succ_cons, List.take_succ_cons, utf8Encode_cons,
        List.length_append]
      rw [List.drop_append]
      exact ih j

/-- Character-list prefixes and UTF-8 byte prefixes coincide (UTF-8 is a
prefix code). -/
theorem utf8Encode_prefix_iff (sub t : List Char) :
    sub <+: t ↔ utf8Encode sub <+: utf8Encode t := by
  constructor
  · rintro ⟨z, rfl⟩
    exact ⟨utf8Encode z, by simp⟩
  · intro h
    induction sub generalizing t with
    | nil => exact List.nil_prefix
    | cons a su ih =>
      cases t with
      | nil =>
        exfalso
        have hlen := h.length_le
        simp only [utf8Encode_cons, utf8Encode_nil, List.length_append,
          List.length_nil] at hlen
        have := utf8EncodeChar_length_pos a
        omega
      | cons b tr =>
        obtain ⟨z, hz⟩ := h
        rw [utf8Encode_cons, utf8Encode_cons, List.append_assoc] at hz
        have hAne : utf8EncodeChar a ≠ [] := by
          have := utf8EncodeChar_length_pos a
          intro hh
          simp [hh] at this
        have hBne : utf8EncodeChar b ≠ [] := by
          have := utf8EncodeChar_length_pos b
          intro hh
          simp [hh] at this
        obtain ⟨xa, ta, hA⟩ := List.exists_cons_of_ne_nil hAne
        obtain ⟨xb, tb, hB⟩ := List.exists_cons_of_ne_nil hBne
        have hhead : (utf8EncodeChar a).headD 0 = (utf8EncodeChar b).headD 0 := by
          rw [hA, hB] at hz ⊢
          simp only [List.cons_append, List.cons.injEq] at hz
          simp [hz.1]
        have hlen : (utf8EncodeChar a).length = (utf8EncodeChar b).length := by
          rw [utf8EncodeChar_length_eq, utf8EncodeChar_length_eq, hhead]
        obtain ⟨h1, h2⟩ := List.append_inj hz hlen
        have hab : a = b := utf8EncodeChar_inj a b h1
        subst hab
        exact List.cons_prefix_cons.mpr ⟨rfl, ih tr ⟨z, h2⟩⟩

/-- C2 counterexample: page text is the single character U+00E9 (two UTF-8
bytes), the substring is empty and the offset is 1, a byte offset inside the
character.  The byte string of the page starting at offset 1 begins with the
(empty) UTF-8 encoding of the substring, so the claim requires
`substring_matches = true`, but `str::get(1..)` fails at the non-boundary and
the code returns `false`. -/
theorem C2_counterexample :
    Core.verify_text (fun _ => .ok ⟨true, [], []⟩) (fun _ => .ok ["é".toList])
        [] 0 [] 1 =
      .ok ⟨false, ⟨true, [], []⟩⟩ ∧
    utf8Encode [] <+: (utf8Encode ("é".toList)).drop 1 ∧
    1 ≤ (utf8Encode ("é".toList)).length :=
  ⟨rfl, by simp, by decide⟩

/-- C2 (amended): when `verify_text` succeeds, `substring_matches` is true iff
the byte offset lies on a UTF-8 character boundary of the decoded page text
and the page's byte string starting at that offset begins with the UTF-8
encoding of the substring; and a page index at or past the number of
extracted pages yields an error. -/
theorem C2_verify_text_matches
    (vps : List Nat → Except String Core.PdfSignatureResult)
    (et : List Nat → Except String (List (List Char)))
    (pdf_bytes : List Nat) (page : Nat) (sub : List Char) (offset : Nat)
    (vc : Core.PdfVerifiedContent)
    (hvc : Core.verify_and_extract vps et pdf_bytes = .ok vc) :
    (vc.pages.length ≤ page →
      Core.verify_text vps et pdf_bytes page sub offset =
        .error ("page " ++ toString page ++ " out of bounds")) ∧
    (∀ r, Core.verify_text vps et pdf_bytes page sub offset = .ok r →
      (r.substring_matches = true ↔
        (∃ k, (utf8Encode ((vc.pages.getD page []).take k)).length = offset) ∧
          utf8Encode sub <+: (utf8Encode (vc.pages.getD page [])).drop offset)) := by
  constructor
  · intro hge
    simp only [Core.verify_text, hvc, if_pos hge]
  · intro r hr
    simp only [Core.verify_text, hvc] at hr
    by_cases hge : vc.pages.length ≤ page
    · simp [if_pos hge] at hr
    · simp only [if_neg hge, Except.ok.injEq] at hr
      have hr' : r.substring_matches =
          ((Core.rustStrGetFrom (vc.pages.getD page []) offset).map
            (fun slice => sub.isPrefixOf slice)).getD false := by
        rw [← hr]
      rw [hr']
      cases hopt : Core.rustStrGetFrom (vc.pages.getD page []) offset with
      | none =>
        constructor
        · intro hfalse
          simp at hfalse
        · rintro ⟨⟨k, hk⟩, _⟩
          have hsome := (rustStrGetFrom_eq_some_iff (vc.pages.getD page []) offset
            ((vc.pages.getD page []).drop k)).mpr ⟨k, hk, rfl⟩
          rw [hopt] at hsome
          exact Option.noConfusion hsome
      | some slice =>
        obtain ⟨k, hk, hslice⟩ :=
          (rustStrGetFrom_eq_some_iff (vc.pages.getD page []) offset slice).mp hopt
        show sub.isPrefixOf slice = true ↔ _
        rw [List.isPrefixOf_iff_prefix, utf8Encode_prefix_iff, hslice,
          utf8Encode_drop, hk]
        constructor
        · intro hpre
          exact ⟨⟨k, hk⟩, hpre⟩
        · rintro ⟨_, hpre⟩
          exact hpre

/-- C2 witness: the amended theorem applied to a run whose page text is "ab",
substring "a" and offset 0. -/
theorem C2_verify_text_matches_witness :
    (∃ k, (utf8Encode (("ab".toList).take k)).length = 0) ∧
      utf8Encode ("a".toList) <+: (utf8Encode ("ab".toList)).drop 0 := by
  have h := (C2_verify_text_matches (fun _ => .ok ⟨true, [], []⟩)
    (fun _ => .ok ["ab".toList]) [] 0 ("a".toList) 0
    ⟨["ab".toList], ⟨true, [], []⟩⟩ rfl).2 ⟨true, ⟨true, [], []⟩⟩ rfl
  simpa using h.mp rfl

/-- C4: `verify_and_extract` errors whenever signature validation yields
`is_valid = false`, and every successful result carries a signature with
`is_valid = true`. -/
theorem C4_verify_and_extract
    (vps : List Nat → Except String Core.PdfSignatureResult)
    (et : List Nat → Except String (List (List Char)))
    (pdf_bytes : List Nat) :
    (∀ sig, vps pdf_bytes = .ok sig → sig.is_valid = false →
      Core.verify_and_extract vps et pdf_bytes =
        .error "signature verification failed") ∧
    (∀ vc, Core.verify_and_extract vps et pdf_bytes = .ok vc →
      vc.signature.is_valid = true) := by
  constructor
  · intro sig hsig hinvalid
    simp [Core.verify_and_extract, hsig, hinvalid]
  · intro vc hvc
    unfold Core.verify_and_extract at hvc
    cases hv : vps pdf_bytes with
    | error e => rw [hv] at hvc; exact Except.noConfusion hvc
    | ok sig =>
      rw [hv] at hvc
      by_cases hval : sig.is_valid
      · cases he : et pdf_bytes with
        | error e => simp [hval, he] at hvc
        | ok pages =>
          simp only [hval, Bool.not_true, Bool.false_eq_true, if_false, he,
            Except.ok.injEq] at hvc
          rw [← hvc]
          exact hval
      · simp [hval] at hvc

/-- C4 witness: an invalid signature makes `verify_and_extract` fail, applied
at a concrete component pair. -/
theorem C4_verify_and_extract_witness :
    Core.verify_and_extract (fun _ => .ok ⟨false, [], []⟩)
      (fun _ => .ok []) [] = .error "signature verification failed" :=
  (C4_verify_and_extract (fun _ => .ok ⟨false, [], []⟩)
    (fun _ => .ok []) []).1 ⟨false, [], []⟩ rfl rfl

/-- C1: `compute_nullifier` returns Keccak-256 of the 119-byte preimage
formed by concatenating, in exactly this order, the 18-byte ASCII domain tag
"zkpdf-nullifier-v0" with no terminator, the 32-byte message-digest hash,
the 32-byte signer-key hash, the 32-byte substring hash, the page number as
one byte, and the offset as four big-endian bytes. -/
theorem C1_nullifier_preimage (keccak256 : List Nat → List Nat)
    (mdh skh sh : List Nat) (page offset : Nat)
    (hm : mdh.length = 32) (hk : skh.length = 32) (hs : sh.length = 32) :
    Nullifier.compute_nullifier keccak256 mdh skh sh page offset =
      keccak256 (Nullifier.NULLIFIER_DOMAIN ++ mdh ++ skh ++ sh ++
        [page] ++ Nullifier.u32ToBeBytes offset) ∧
    (Nullifier.NULLIFIER_DOMAIN ++ mdh ++ skh ++ sh ++
        [page] ++ Nullifier.u32ToBeBytes offset).length = 119 ∧
    Nullifier.NULLIFIER_DOMAIN = strBytes "zkpdf-nullifier-v0" ∧
    Nullifier.NULLIFIER_DOMAIN.length = 18 := by
  refine ⟨rfl, ?_, rfl, rfl⟩
  simp [List.length_append, hm, hk, hs, Nullifier.u32ToBeBytes]
  rfl

/-- C1 witness: the preimage theorem applied at a concrete input. -/
theorem C1_nullifier_preimage_witness :
    Nullifier.compute_nullifier id (List.replicate 32 1) (List.replicate 32 2)
        (List.replicate 32 3) 0 0 =
      id (Nullifier.NULLIFIER_DOMAIN ++ List.replicate 32 1 ++ List.replicate 32 2 ++
        List.replicate 32 3 ++ [0] ++ Nullifier.u32ToBeBytes 0) ∧
    (Nullifier.NULLIFIER_DOMAIN ++ List.replicate 32 1 ++ List.replicate 32 2 ++
        List.replicate 32 3 ++ [0] ++ Nullifier.u32ToBeBytes 0).length = 119 ∧
    Nullifier.NULLIFIER_DOMAIN = strBytes "zkpdf-nullifier-v0" ∧
    Nullifier.NULLIFIER_DOMAIN.length = 18 :=
  C1_nullifier_preimage id (List.replicate 32 1) (List.replicate 32 2)
    (List.replicate 32 3) 0 0 (by simp) (by simp) (by simp)

namespace Pkcs7

/-- Mirrors simple_asn1's `ASN1Class`. -/
inductive ASN1Class where
  | Universal
  | Application
  | ContextSpecific
  | Private
  deriving DecidableEq, Repr

/-- The subset of simple_asn1's `ASN1Block` constructors that
pkcs7_parser.rs matches on (the string variants are never matched; a value
of one would fall into every wildcard arm, which an `Unknown` value of an
unused class also does, so the subset loses no behaviour).  `Integer` holds
a signed big integer, `len` the offset field simple_asn1 stores first. -/
inductive ASN1Block where
  | Boolean (len : Nat) (b : Bool)
  | Integer (len : Nat) (val : Int)
  | BitString (len : Nat) (bits : Nat) (data : List Nat)
  | OctetString (len : Nat) (data : List Nat)
  | Null (len : Nat)
  | ObjectIdentifier (len : Nat) (oid : List Nat)
  | Sequence (len : Nat) (items : List ASN1Block)
  | Set (len : Nat) (items : List ASN1Block)
  | Explicit (cls : ASN1Class) (len : Nat) (tag : Nat) (inner : ASN1Block)
  | Unknown (cls : ASN1Class) (constructed : Bool) (len : Nat) (tag : Nat)
      (data : List Nat)

/-- Mirrors `Pkcs7Error` in signature-validator/src/types.rs.  `IndexPanic`
additionally models the Rust `Vec` index panics of pkcs7_parser.rs
(`signer_info[1]`, `items[0]`, …), which are not errors in the source. -/
inductive Pkcs7Error where
  | Der (msg : String)
  | Structure (msg : String)
  | UnsupportedDigestOid (oid : List Nat)
  | MissingMessageDigest
  | IndexPanic
  deriving DecidableEq, Repr

/-- Mirrors `SignatureAlgorithm` in signature-validator/src/types.rs. -/
inductive SignatureAlgorithm where
  | Sha1WithRsaEncryption
  | Sha256WithRsaEncryption
  | Sha384WithRsaEncryption
  | Sha512WithRsaEncryption
  | RsaEncryption
  | RsaEncryptionWithUnknownHash (oid : List Nat)
  | Unknown (oid : List Nat)
  deriving DecidableEq, Repr

/-- Big-endian base-256 digits of `n` (empty for zero); the fuel argument
only serves the termination checker. -/
def natBytesBEAux : Nat → Nat → List Nat
  | 0, _ => []
  | fuel + 1, n => if n = 0 then [] else natBytesBEAux fuel (n / 256) ++ [n % 256]

/-- Big-endian bytes of a natural number, no leading zero, empty for 0. -/
def natBytesBE (n : Nat) : List Nat := natBytesBEAux n n

/-- Big-endian byte padding of `v` to exactly `k` bytes. -/
def bePad (k v : Nat) : List Nat :=
  (List.range k).map (fun j => v / 256 ^ (k - 1 - j) % 256)

/-- num-bigint `BigInt::to_signed_bytes_be`: minimal two's-complement
big-endian bytes. -/
def toSignedBytesBE (i : Int) : List Nat :=
  if i = 0 then [0]
  else if 0 < i then
    let bs := natBytesBE i.toNat
    if 0x80 ≤ bs.headD 0 then 0 :: bs else bs
  else
    let n := (-i).toNat
    let k := (natBytesBE n).length
    if n ≤ 2 ^ (8 * k - 1) then bePad k (2 ^ (8 * k) - n)
    else bePad (k + 1) (2 ^ (8 * (k + 1)) - n)

/-- Big-endian bytes to a natural number (`BigUint::from_bytes_be`). -/
def fromBytesBE (bs : List Nat) : Nat := bs.foldl (fun a b => a * 256 + b) 0

/-- The composite `BigUint::from_bytes_be(&i.to_signed_bytes_be())` used on
serial numbers and exponents. -/
def bigUintOfSigned (i : Int) : Nat := fromBytesBE (toSignedBytesBE i)

/-- OID 1.2.840.113549.1.7.2 (signedData). -/
def oidSignedData : List Nat := [1, 2, 840, 113549, 1, 7, 2]

/-- OID 1.2.840.113549.1.7.1 (data). -/
def oidData : List Nat := [1, 2, 840, 113549, 1, 7, 1]

/-- OID 1.2.840.113549.1.9.4 (messageDigest). -/
def oidMessageDigest : List Nat := [1, 2, 840, 113549, 1, 9, 4]

/-- OID 1.2.840.113549.1.1.1 (rsaEncryption). -/
def oidRsaEncryption : List Nat := [1, 2, 840, 113549, 1, 1, 1]

/-- OID 1.3.14.3.2.26 (SHA-1). -/
def oidSha1 : List Nat := [1, 3, 14, 3, 2, 26]

/-- OID 2.16.840.1.101.3.4.2.1 (SHA-256). -/
def oidSha256 : List Nat := [2, 16, 840, 1, 101, 3, 4, 2, 1]

/-- OID 2.16.840.1.101.3.4.2.2 (SHA-384). -/
def oidSha384 : List Nat := [2, 16, 840, 1, 101, 3, 4, 2, 2]

/-- OID 2.16.840.1.101.3.4.2.3 (SHA-512). -/
def oidSha512 : List Nat := [2, 16, 840, 1, 101, 3, 4, 2, 3]

/-- The rsa crate's public key, reduced to its two integers. -/
structure RsaPublicKey where
  n : Nat
  e : Nat
  deriving DecidableEq, Repr

/-- Outcome of the rsa crate's `verify`. -/
inductive RsaVerifyOutcome where
  | ok
  | verificationErr
  | otherErr (msg : String)
  deriving DecidableEq, Repr

/-- The external crates entering signature validation: simple_asn1's
`from_der`, the four SHA hashers, and the rsa crate's key construction,
PKCS#1 DER encoding and PKCS#1 v1.5 verification. -/
structure Externals where
  fromDer : List Nat → Except String (List ASN1Block)
  h1 : List Nat → List Nat
  h256 : List Nat → List Nat
  h384 : List Nat → List Nat
  h512 : List Nat → List Nat
  mkRsaKey : Nat → Nat → Except String RsaPublicKey
  pkcs1Der : RsaPublicKey → List Nat
  rsaVerify : RsaPublicKey → SignatureAlgorithm → List Nat → List Nat → RsaVerifyOutcome

/-- The four supported hashers, selected by algorithm (the repeated `match
algorithm` hashing blocks of lib.rs and pkcs7_parser.rs); `none` on the
unsupported variants. -/
def hashWith (ext : Externals) (algorithm : SignatureAlgorithm) (data : List Nat) :
    Option (List Nat) :=
  match algorithm with
  | .Sha1WithRsaEncryption => some (ext.h1 data)
  | .Sha256WithRsaEncryption => some (ext.h256 data)
  | .Sha384WithRsaEncryption => some (ext.h384 data)
  | .Sha512WithRsaEncryption => some (ext.h512 data)
  | _ => none

/-- Mirrors `VerifierParams` in pkcs7_parser.rs (`modulus` as bytes,
`exponent` as a big integer). -/
structure VerifierParams where
  modulus : List Nat
  exponent : Nat
  signature : List Nat
  signed_attr_digest : Option (List Nat)
  algorithm : SignatureAlgorithm
  signed_data_message_digest : Option (List Nat)
  deriving DecidableEq, Repr

/-- Mirrors the private `SignatureData` struct of pkcs7_parser.rs. -/
structure SignatureData where
  signature : List Nat
  signer_serial : Nat
  digest_bytes : Option (List Nat)
  signed_algo : SignatureAlgorithm
  expected_message_digest : Option (List Nat)
  deriving DecidableEq, Repr

/-- Mirrors `extract_signer_info`: last element a SET whose first element is
the SignerInfo SEQUENCE. -/
def extract_signer_info (signed_data_seq : List ASN1Block) :
    Except Pkcs7Error (List ASN1Block) :=
  match signed_data_seq.getLast? with
  | some (.Set _ items) =>
    match items.head? with
    | some (.Sequence _ signer_info) => .ok signer_info
    | _ => .error (.Structure "Expected SignerInfo SEQUENCE in SignerInfo SET")
  | _ => .error (.Structure "Expected SignerInfo SET in SignedData")

/-- Mirrors `extract_issuer_and_digest_algorithm`: the serial number from
`signer_info[1]` and the digest OID from `signer_info[2]` (both Rust `Vec`
indexings, panicking when absent). -/
def extract_issuer_and_digest_algorithm (signer_info : List ASN1Block) :
    Except Pkcs7Error (Nat × List Nat) :=
  match signer_info.get? 1 with
  | none => .error .IndexPanic
  | some b1 =>
    match b1 with
    | .Sequence _ parts =>
      if parts.length = 2 then
        match parts.get? 1 with
        | some (.Integer _ big_int) =>
          match signer_info.get? 2 with
          | none => .error .IndexPanic
          | some b2 =>
            match b2 with
            | .Sequence _ items =>
              match items.head? with
              | none => .error .IndexPanic
              | some (.ObjectIdentifier _ oid) => .ok (bigUintOfSigned big_int, oid)
              | some _ => .error (.Structure "Invalid digestAlgorithm in SignerInfo")
            | _ => .error (.Structure "Digest algorithm missing")
        | some _ => .error (.Structure "Expected serialNumber INTEGER")
        | none => .error .IndexPanic
      else .error (.Structure "Expected issuerAndSerialNumber SEQUENCE")
    | _ => .error (.Structure "Expected issuerAndSerialNumber SEQUENCE")

/-- The Rust length header of `extract_signed_attributes_der`: one byte
below 128, `0x81` to 255, else the two-byte form whose bytes are the `u8`
truncations `(len >> 8) as u8` and `(len & 0xFF) as u8`. -/
def rustShortLenEncode (len : Nat) : List Nat :=
  if len < 128 then [len]
  else if len ≤ 0xFF then [0x81, len]
  else [0x82, len / 256 % 256, len % 256]

/-- The byte string `extract_signed_attributes_der` builds: SET tag `0x31`,
the Rust length header, then the inner content. -/
def reconstructSignedAttrs (content : List Nat) : List Nat :=
  0x31 :: rustShortLenEncode content.length ++ content

/-- Mirrors `extract_signed_attributes_der`: the first constructed
context-specific `[0]` block, reconstructed with the SET tag (the Rust
function always returns `Ok`, so the `Result` wrapper is dropped). -/
def extract_signed_attributes_der (signer_info : List ASN1Block) :
    Option (List Nat) :=
  signer_info.findSome? (fun block =>
    match block with
    | .Unknown .ContextSpecific true _ tag content =>
      if tag = 0 then some (reconstructSignedAttrs content) else none
    | _ => none)

/-- Mirrors `digest_algorithm_from_oid`. -/
def digest_algorithm_from_oid (digest_oid : List Nat) :
    Except Pkcs7Error SignatureAlgorithm :=
  if digest_oid = oidSha1 then .ok .Sha1WithRsaEncryption
  else if digest_oid = oidSha256 then .ok .Sha256WithRsaEncryption
  else if digest_oid = oidSha384 then .ok .Sha384WithRsaEncryption
  else if digest_oid = oidSha512 then .ok .Sha512WithRsaEncryption
  else .error (.UnsupportedDigestOid digest_oid)

/-- Mirrors `compute_signed_attributes_digest`. -/
def compute_signed_attributes_digest (ext : Externals) (signed_attrs_der : List Nat)
    (digest_oid : List Nat) : Except Pkcs7Error (List Nat × SignatureAlgorithm) :=
  match digest_algorithm_from_oid digest_oid with
  | .error e => .error e
  | .ok algorithm =>
    match hashWith ext algorithm signed_attrs_der with
    | some digest => .ok (digest, algorithm)
    | none => .error (.UnsupportedDigestOid digest_oid)

/-- Mirrors `extract_signature`: the OCTET STRING at index 5 with
signedAttrs, 4 without (a checked `get`, not a panicking index). -/
def extract_signature (signer_info : List ASN1Block) (has_signed_attrs : Bool) :
    Except Pkcs7Error (List Nat) :=
  match signer_info.get? (if has_signed_attrs then 5 else 4) with
  | some (.OctetString _ s) => .ok s
  | _ => .error (.Structure "EncryptedDigest (signature) not found")

/-- Mirrors `extract_signed_content_digest`: the first SEQUENCE carrying the
data OID 1.2.840.113549.1.7.1 yields its eContent octets (unwrapped from an
Explicit or re-parsed Unknown context block, or taken directly); shapes that
match nothing continue the scan, a `from_der` failure aborts. -/
def extract_signed_content_digest (ext : Externals) :
    List ASN1Block → Except Pkcs7Error (Option (List Nat))
  | [] => .ok none
  | block :: rest =>
    match block with
    | .Sequence _ items =>
      match items.head? with
      | some (.ObjectIdentifier _ oid_val) =>
        if oid_val = oidData then
          match items.get? 1 with
          | some (.Explicit .ContextSpecific _ _ inner) =>
            match inner with
            | .OctetString _ bytes => .ok (some bytes)
            | _ => extract_signed_content_digest ext rest
          | some (.Unknown .ContextSpecific _ _ _ data) =>
            match ext.fromDer data with
            | .error e => .error (.Der e)
            | .ok parsed =>
              match parsed.head? with
              | some (.OctetString _ bytes) => .ok (some bytes)
              | _ => extract_signed_content_digest ext rest
          | some (.OctetString _ bytes) => .ok (some bytes)
          | _ => extract_signed_content_digest ext rest
        else extract_signed_content_digest ext rest
      | _ => extract_signed_content_digest ext rest
    | _ => extract_signed_content_digest ext rest

/-- The candidate scan of `extract_message_digest` (attribute OID
1.2.840.113549.1.9.4); `items[0]`, `items[1]` and `inner_vals[0]` are
panicking indexings. -/
def findMessageDigest : List ASN1Block → Except Pkcs7Error (List Nat)
  | [] => .error .MissingMessageDigest
  | attr :: rest =>
    match attr with
    | .Sequence _ items =>
      match items.head? with
      | none => .error .IndexPanic
      | some (.ObjectIdentifier _ oid) =>
        if oid = oidMessageDigest then
          match items.get? 1 with
          | none => .error .IndexPanic
          | some (.Set _ inner_vals) =>
            match inner_vals.head? with
            | none => .error .IndexPanic
            | some (.OctetString _ data) => .ok data
            | some _ => .error (.Structure "messageDigest value not an OctetString")
          | some _ => .error (.Structure "messageDigest missing inner Set")
        else findMessageDigest rest
      | some _ => findMessageDigest rest
    | _ => findMessageDigest rest

/-- Mirrors `extract_message_digest`, including the unwrap of a sole SET. -/
def extract_message_digest (attrs : List ASN1Block) : Except Pkcs7Error (List Nat) :=
  findMessageDigest
    (if attrs.length = 1 then
      match attrs.head? with
      | some (.Set _ inner) => inner
      | _ => attrs
    else attrs)

/-- Mirrors `get_signature_data` in pkcs7_parser.rs.  In the branch without
signedAttrs the embedded eContent is required, hashed with the declared
algorithm into `digest_bytes`, and returned raw as
`expected_message_digest`. -/
def get_signature_data (ext : Externals) (signed_data_seq : List ASN1Block) :
    Except Pkcs7Error SignatureData :=
  match extract_signer_info signed_data_seq with
  | .error e => .error e
  | .ok signer_info =>
    match extract_issuer_and_digest_algorithm signer_info with
    | .error e => .error e
    | .ok (signer_serial, digest_oid) =>
      let signed_attrs_der := extract_signed_attributes_der signer_info
      let has_signed_attrs := signed_attrs_der.isSome
      match extract_signed_content_digest ext signed_data_seq with
      | .error e => .error e
      | .ok embedded_digest =>
        let triple : Except Pkcs7Error
            (Option (List Nat) × SignatureAlgorithm × Option (List Nat)) :=
          match signed_attrs_der with
          | some der =>
            match compute_signed_attributes_digest ext der digest_oid with
            | .error e => .error e
            | .ok (digest, algo) =>
              match ext.fromDer der with
              | .error e => .error (.Der e)
              | .ok signed_attrs =>
                match extract_message_digest signed_attrs with
                | .error e => .error e
                | .ok message_digest => .ok (some digest, algo, some message_digest)
          | none =>
            match embedded_digest with
            | none => .error (.Structure "Signed content digest missing")
            | some digest =>
              match digest_algorithm_from_oid digest_oid with
              | .error e => .error e
              | .ok algo =>
                match hashWith ext algo digest with
                | some signed_digest => .ok (some signed_digest, algo, some digest)
                | none => .error (.UnsupportedDigestOid digest_oid)
        match triple with
        | .error e => .error e
        | .ok (digest_bytes, signed_algo, expected_message_digest) =>
          match extract_signature signer_info has_signed_attrs with
          | .error e => .error e
          | .ok signature =>
            .ok ⟨signature, signer_serial, digest_bytes, signed_algo,
              expected_message_digest⟩

/-- Mirrors `extract_content_info`: top-level SEQUENCE whose first child
(`children[0]`, a panicking index) is the signedData OID. -/
def extract_content_info (blocks : List ASN1Block) :
    Except Pkcs7Error (List ASN1Block) :=
  match blocks.head? with
  | some (.Sequence _ children) =>
    match children.head? with
    | none => .error .IndexPanic
    | some (.ObjectIdentifier _ oid_val) =>
      if oid_val = oidSignedData then .ok children
      else .error (.Structure "Not a SignedData contentType")
    | some _ => .error (.Structure "Missing contentType OID")
  | _ => .error (.Structure "Top-level not a SEQUENCE")

/-- Mirrors `extract_signed_children` (`parsed[0]` is a panicking index). -/
def extract_signed_children (ext : Externals) (children : List ASN1Block) :
    Except Pkcs7Error (List ASN1Block) :=
  match children.get? 1 with
  | none => .error (.Structure "Missing SignedData content")
  | some block =>
    match block with
    | .Explicit cls _ _ inner =>
      if cls = .ContextSpecific then
        match inner with
        | .Sequence _ seq_children => .ok seq_children
        | _ => .error (.Structure "Explicit SignedData not a SEQUENCE")
      else .error (.Structure "Unexpected SignedData format")
    | .Unknown cls _ _ _ data =>
      if cls = .ContextSpecific then
        match ext.fromDer data with
        | .error e => .error (.Der e)
        | .ok parsed =>
          match parsed.head? with
          | none => .error .IndexPanic
          | some (.Sequence _ seq_children) => .ok seq_children
          | some _ => .error (.Structure "Inner SignedData not a SEQUENCE")
      else .error (.Structure "Unexpected SignedData format")
    | .Sequence _ seq_children => .ok seq_children
    | _ => .error (.Structure "Unexpected SignedData format")

/-- The `matches Sequence` test of `find_certificates`. -/
def isSequenceBlock (b : ASN1Block) : Bool :=
  match b with
  | .Sequence _ _ => true
  | _ => false

/-- Mirrors `find_certificates`: the first `[0]` context block (explicit or
unknown), unpacked into the certificate list; absent certificates yield an
empty list. -/
def find_certificates (ext : Externals) (signed_data_seq : List ASN1Block) :
    Except Pkcs7Error (List ASN1Block) :=
  match signed_data_seq.find? (fun block =>
    match block with
    | .Explicit .ContextSpecific _ tag _ => tag == 0
    | .Unknown .ContextSpecific _ _ tag _ => tag == 0
    | _ => false) with
  | none => .ok []
  | some cert_block =>
    match cert_block with
    | .Unknown .ContextSpecific _ _ tag data =>
      if tag = 0 then
        match ext.fromDer data with
        | .error e => .error (.Der e)
        | .ok parsed =>
          match parsed with
          | [.Set _ items] => .ok items
          | [.Sequence _ items] => .ok items
          | seqs =>
            if seqs.all isSequenceBlock then .ok seqs
            else .error (.Structure "Unexpected structure inside implicit certificate block")
      else .error (.Structure "Unexpected certificates block type")
    | .Explicit .ContextSpecific _ tag inner =>
      if tag = 0 then
        match inner with
        | .Set _ certs => .ok certs
        | .Sequence t fields => .ok [.Sequence t fields]
        | _ => .error (.Structure "Expected SET or SEQUENCE inside Explicit certificate block")
      else .error (.Structure "Unexpected certificates block type")
    | .Set _ items =>
      if items.all isSequenceBlock then .ok items
      else .error (.Structure "Unexpected certificates block type")
    | _ => .error (.Structure "Unexpected certificates block type")

/-- Mirrors `get_correct_tbs`: scan certificates for the tbsCertificate
whose serial (`tbs_fields[1]`, panicking index; `cert_fields[0]` likewise)
matches. -/
def get_correct_tbs : List ASN1Block → Nat → Except Pkcs7Error (List ASN1Block)
  | [], _ => .error (.Structure "No matching certificate found")
  | certificate :: rest, signed_serial =>
    match certificate with
    | .Sequence _ cert_fields =>
      match cert_fields.head? with
      | none => .error .IndexPanic
      | some first =>
        match (match first with
          | .Explicit .ContextSpecific _ _ _ => some cert_fields
          | .Sequence _ seq => some seq
          | _ => none) with
        | none => .error (.Structure "tbsCertificate not found")
        | some tbs_fields =>
          match tbs_fields.get? 1 with
          | none => .error .IndexPanic
          | some (.Integer _ big_int) =>
            if bigUintOfSigned big_int = signed_serial then .ok tbs_fields
            else get_correct_tbs rest signed_serial
          | some _ => .error (.Structure "Serial number not found")
    | _ => .error (.Structure "Certificate not a SEQUENCE")

/-- Mirrors `find_subject_public_key_info` (`sf[0]` is a panicking index,
`alg.get(0)` a checked one). -/
def find_subject_public_key_info : List ASN1Block →
    Except Pkcs7Error (List ASN1Block)
  | [] => .error (.Structure "subjectPublicKeyInfo not found")
  | b :: rest =>
    match b with
    | .Sequence _ sf =>
      match sf.head? with
      | none => .error .IndexPanic
      | some (.Sequence _ alg) =>
        match alg.head? with
        | some (.ObjectIdentifier _ o) =>
          if o = oidRsaEncryption then .ok sf
          else find_subject_public_key_info rest
        | _ => find_subject_public_key_info rest
      | some _ => find_subject_public_key_info rest
    | _ => find_subject_public_key_info rest

/-- Mirrors `extract_public_key_bitstring` (`spki_fields[1]` panics). -/
def extract_public_key_bitstring (spki_fields : List ASN1Block) :
    Except Pkcs7Error (List Nat) :=
  match spki_fields.get? 1 with
  | none => .error .IndexPanic
  | some (.BitString _ _ d) => .ok d
  | some _ => .error (.Structure "Expected BIT STRING for public key")

/-- Mirrors `parse_rsa_public_key` (`rsa_blocks[0]` panics). -/
def parse_rsa_public_key (ext : Externals) (bitstring : List Nat) :
    Except Pkcs7Error (List ASN1Block) :=
  match ext.fromDer bitstring with
  | .error e => .error (.Der e)
  | .ok rsa_blocks =>
    match rsa_blocks.head? with
    | none => .error .IndexPanic
    | some (.Sequence _ items) => .ok items
    | some _ => .error (.Structure "RSAPublicKey not a SEQUENCE")

/-- Mirrors `extract_modulus` (`rsa_sequence[0]` panics). -/
def extract_modulus (rsa_sequence : List ASN1Block) :
    Except Pkcs7Error (List Nat) :=
  match rsa_sequence.head? with
  | none => .error .IndexPanic
  | some (.Integer _ m) => .ok (toSignedBytesBE m)
  | some _ => .error (.Structure "Modulus not found")

/-- Mirrors `extract_exponent` (`rsa_sequence[1]` panics). -/
def extract_exponent (rsa_sequence : List ASN1Block) : Except Pkcs7Error Nat :=
  match rsa_sequence.get? 1 with
  | none => .error .IndexPanic
  | some (.Integer _ e) => .ok (bigUintOfSigned e)
  | some _ => .error (.Structure "Exponent not found")

/-- Mirrors `extract_pubkey_components`. -/
def extract_pubkey_components (ext : Externals) (signed_data_seq : List ASN1Block)
    (signed_serial_number : Nat) : Except Pkcs7Error (List Nat × Nat) :=
  match find_certificates ext signed_data_seq with
  | .error e => .error e
  | .ok certificates =>
    match get_correct_tbs certificates signed_serial_number with
    | .error e => .error e
    | .ok tbs_fields =>
      match find_subject_public_key_info tbs_fields with
      | .error e => .error e
      | .ok spki_fields =>
        match extract_public_key_bitstring spki_fields with
        | .error e => .error e
        | .ok public_key_bitstring =>
          match parse_rsa_public_key ext public_key_bitstring with
          | .error e => .error e
          | .ok rsa_sequence =>
            match extract_modulus rsa_sequence with
            | .error e => .error e
            | .ok modulus =>
              match extract_exponent rsa_sequence with
              | .error e => .error e
              | .ok exponent => .ok (modulus, exponent)

/-- Mirrors `parse_signed_data` in pkcs7_parser.rs. -/
def parse_signed_data (ext : Externals) (der_bytes : List Nat) :
    Except Pkcs7Error VerifierParams :=
  match ext.fromDer der_bytes with
  | .error e => .error (.Der e)
  | .ok blocks =>
    match extract_content_info blocks with
    | .error e => .error e
    | .ok content_info =>
      match extract_signed_children ext content_info with
      | .error e => .error e
      | .ok signed_children =>
        match get_signature_data ext signed_children with
        | .error e => .error e
        | .ok signature_data =>
          match extract_pubkey_components ext signed_children
              signature_data.signer_serial with
          | .error e => .error e
          | .ok (modulus_bytes, exponent_big) =>
            .ok ⟨modulus_bytes, exponent_big, signature_data.signature,
              signature_data.digest_bytes, signature_data.signed_algo,
              signature_data.expected_message_digest⟩

end Pkcs7

namespace SigValidator

/-- Mirrors `SignatureValidationError` in signature-validator/src/types.rs. -/
inductive SignatureValidationError where
  | SignedBytes (e : SignedBytes.SignedBytesError)
  | Pkcs7 (e : Pkcs7.Pkcs7Error)
  | UnsupportedAlgorithm (a : Pkcs7.SignatureAlgorithm)
  | MessageDigestMismatch (expected calculated : List Nat)
  | InvalidPublicKey (msg : String)
  | SignatureVerification (msg : String)
  deriving DecidableEq, Repr

/-- Mirrors `calculate_signed_data_hash` in signature-validator/src/lib.rs. -/
def calculate_signed_data_hash (ext : Pkcs7.Externals) (signed_data : List Nat)
    (algorithm : Pkcs7.SignatureAlgorithm) :
    Except SignatureValidationError (List Nat) :=
  match Pkcs7.hashWith ext algorithm signed_data with
  | some h => .ok h
  | none => .error (.UnsupportedAlgorithm algorithm)

/-- Mirrors `create_rsa_public_key`; `from_bytes_be(to_bytes_be(e))` on the
exponent is the identity on big unsigned integers. -/
def create_rsa_public_key (ext : Pkcs7.Externals)
    (verifier_params : Pkcs7.VerifierParams) :
    Except SignatureValidationError Pkcs7.RsaPublicKey :=
  match ext.mkRsaKey (Pkcs7.fromBytesBE verifier_params.modulus)
      verifier_params.exponent with
  | .ok k => .ok k
  | .error e => .error (.InvalidPublicKey e)

/-- Mirrors `get_pkcs1v15_padding`; the padding object is determined by the
algorithm, so it is represented by the algorithm itself. -/
def get_pkcs1v15_padding (algorithm : Pkcs7.SignatureAlgorithm) :
    Except SignatureValidationError Pkcs7.SignatureAlgorithm :=
  match algorithm with
  | .Sha1WithRsaEncryption => .ok algorithm
  | .Sha256WithRsaEncryption => .ok algorithm
  | .Sha384WithRsaEncryption => .ok algorithm
  | .Sha512WithRsaEncryption => .ok algorithm
  | other => .error (.UnsupportedAlgorithm other)

/-- Mirrors `verify_rsa_signature`. -/
def verify_rsa_signature (ext : Pkcs7.Externals) (pub_key : Pkcs7.RsaPublicKey)
    (padding : Pkcs7.SignatureAlgorithm) (signed_attr_digest signature : List Nat) :
    Except SignatureValidationError Bool :=
  match ext.rsaVerify pub_key padding signed_attr_digest signature with
  | .ok => .ok true
  | .verificationErr => .ok false
  | .otherErr e => .error (.SignatureVerification e)

/-- Line 101-104 of signature-validator/src/lib.rs: the digest handed to
PKCS#1 v1.5 verification, `signed_attr_digest.unwrap_or(calculated)`. -/
def digestForSignature (verifier_params : Pkcs7.VerifierParams)
    (calculated : List Nat) : List Nat :=
  verifier_params.signed_attr_digest.getD calculated

/-- CHECK 2 of `verify_pdf_signature` (key construction, padding, RSA
verification, result assembly), split out for reuse in the two CHECK 1
branches. -/
def verifyRest (ext : Pkcs7.Externals) (verifier_params : Pkcs7.VerifierParams)
    (calculated_signed_data_hash : List Nat) :
    Except SignatureValidationError Core.PdfSignatureResult :=
  match create_rsa_public_key ext verifier_params with
  | .error e => .error e
  | .ok pub_key =>
    match get_pkcs1v15_padding verifier_params.algorithm with
    | .error e => .error e
    | .ok padding =>
      match verify_rsa_signature ext pub_key padding
          (digestForSignature verifier_params calculated_signed_data_hash)
          verifier_params.signature with
      | .error e => .error e
      | .ok is_verified =>
        .ok ⟨is_verified,
          verifier_params.signed_data_message_digest.getD calculated_signed_data_hash,
          ext.pkcs1Der pub_key⟩

/-- Mirrors `verify_pdf_signature` in signature-validator/src/lib.rs; the
outer `Option` models the panic inside `get_signature_der`. -/
def verify_pdf_signature (ext : Pkcs7.Externals) (pdf_bytes : List Nat) :
    Option (Except SignatureValidationError Core.PdfSignatureResult) :=
  match SignedBytes.get_signature_der pdf_bytes with
  | none => none
  | some (.error e) => some (.error (.SignedBytes e))
  | some (.ok (signature_der, signed_data)) =>
    match Pkcs7.parse_signed_data ext signature_der with
    | .error e => some (.error (.Pkcs7 e))
    | .ok verifier_params =>
      match calculate_signed_data_hash ext signed_data verifier_params.algorithm with
      | .error e => some (.error e)
      | .ok calculated =>
        match verifier_params.signed_data_message_digest with
        | some expected =>
          if expected ≠ calculated then
            some (.error (.MessageDigestMismatch expected calculated))
          else some (verifyRest ext verifier_params calculated)
        | none => some (verifyRest ext verifier_params calculated)

end SigValidator

namespace Pkcs7

/-- Modelled from the spec: the canonical DER definite-length encoding, "the
DER encoding of the inner content length" — short form below 128, else
`0x80` plus the byte count, then the big-endian length bytes. -/
def derLengthEncode (n : Nat) : List Nat :=
  if n < 128 then [n] else (0x80 + (natBytesBE n).length) :: natBytesBE n

theorem natBytesBEAux_zero (fuel : Nat) : natBytesBEAux fuel 0 = [] := by
  cases fuel <;> simp [natBytesBEAux]

theorem natBytesBEAux_small (fuel v : Nat) (h1 : 0 < v) (h2 : v < 256) :
    natBytesBEAux (fuel + 1) v = [v] := by
  have hd : v / 256 = 0 := Nat.div_eq_of_lt h2
  have hm : v % 256 = v := Nat.mod_eq_of_lt h2
  simp [natBytesBEAux, Nat.pos_iff_ne_zero.mp h1, hd, hm, natBytesBEAux_zero]

theorem natBytesBE_small (n : Nat) (h1 : 0 < n) (h2 : n < 256) :
    natBytesBE n = [n] := by
  unfold natBytesBE
  obtain ⟨m, rfl⟩ := Nat.exists_eq_add_of_lt h1
  simpa using natBytesBEAux_small (0 + m) (0 + m + 1) (by omega) (by omega)

theorem natBytesBE_mid (n : Nat) (h1 : 256 ≤ n) (h2 : n < 65536) :
    natBytesBE n = [n / 256, n % 256] := by
  unfold natBytesBE
  obtain ⟨k, rfl⟩ : ∃ k, n = k + 2 := ⟨n - 2, by omega⟩
  simp only [natBytesBEAux, show k + 2 ≠ 0 by omega, if_false]
  have e1 : ¬((k + 2) / 256 = 0) := by omega
  have e2 : (k + 2) / 256 / 256 = 0 := by omega
  have e3 : (k + 2) / 256 % 256 = (k + 2) / 256 := by omega
  rw [if_neg e1, e2, natBytesBEAux_zero, e3]
  simp

theorem rustShortLenEncode_eq_der (n : Nat) (h : n < 65536) :
    rustShortLenEncode n = derLengthEncode n := by
  unfold rustShortLenEncode derLengthEncode
  by_cases h1 : n < 128
  · simp [h1]
  · by_cases h2 : n ≤ 255
    · rw [if_neg h1, if_pos h2, if_neg h1, natBytesBE_small n (by omega) (by omega)]
      rfl
    · rw [if_neg h1, if_neg h2, if_neg h1, natBytesBE_mid n (by omega) h]
      have hd : n / 256 % 256 = n / 256 := Nat.mod_eq_of_lt (by omega)
      rw [hd]
      rfl

end Pkcs7

/-- C7 counterexample: a signedAttrs block whose inner content is 65536
bytes long.  The code's two-byte length form truncates `len >> 8` to a byte,
emitting the header 0x82 00 00, while the DER encoding of 65536 is
0x83 01 00 00, so the reconstruction differs from
0x31 followed by the DER length followed by the content. -/
theorem C7_counterexample :
    Pkcs7.extract_signed_attributes_der
        [.Unknown .ContextSpecific true 0 0 (List.replicate 65536 0)] =
      some (Pkcs7.reconstructSignedAttrs (List.replicate 65536 0)) ∧
    Pkcs7.rustShortLenEncode (List.replicate 65536 (0 : Nat)).length = [0x82, 0, 0] ∧
    Pkcs7.derLengthEncode (List.replicate 65536 (0 : Nat)).length = [0x83, 1, 0, 0] ∧
    Pkcs7.reconstructSignedAttrs (List.replicate 65536 0) ≠
      0x31 :: Pkcs7.derLengthEncode (List.replicate 65536 (0 : Nat)).length ++
        List.replicate 65536 0 := by
  have hgen : ∀ R : List Nat, R.length = 65536 →
      Pkcs7.extract_signed_attributes_der [.Unknown .ContextSpecific true 0 0 R] =
        some (Pkcs7.reconstructSignedAttrs R) ∧
      Pkcs7.rustShortLenEncode R.length = [0x82, 0, 0] ∧
      Pkcs7.derLengthEncode R.length = [0x83, 1, 0, 0] ∧
      Pkcs7.reconstructSignedAttrs R ≠
        0x31 :: Pkcs7.derLengthEncode R.length ++ R := by
    intro R hR
    refine ⟨?_, ?_, ?_, ?_⟩
    · simp only [Pkcs7.extract_signed_attributes_der, List.findSome?_cons, if_true]
    · rw [hR]
      decide
    · rw [hR]
      decide
    · intro h
      simp only [Pkcs7.reconstructSignedAttrs, hR] at h
      rw [show Pkcs7.rustShortLenEncode 65536 = [0x82, 0, 0] from by decide,
        show Pkcs7.derLengthEncode 65536 = [0x83, 1, 0, 0] from by decide] at h
      have hl := congrArg List.length h
      simp only [List.length_cons, List.length_append] at hl
      omega
  exact hgen (List.replicate 65536 0) (by rw [List.length_replicate])

/-- C7 (amended): whenever PKCS#7 parsing finds a `[0]` constructed
context-specific signedAttrs block, the reconstruction is 0x31 followed by
the code's length header followed by the inner content, and it begins with
0x31; when the inner content is shorter than 65536 bytes the header is
exactly the DER encoding of the inner content length (for longer content
the two-byte form truncates the length). -/
theorem C7_signed_attrs_reconstruction (si : List Pkcs7.ASN1Block) (d : List Nat)
    (h : Pkcs7.extract_signed_attributes_der si = some d) :
    ∃ content, d = Pkcs7.reconstructSignedAttrs content ∧
      d.head? = some 0x31 ∧
      (content.length < 65536 →
        d = 0x31 :: Pkcs7.derLengthEncode content.length ++ content) := by
  obtain ⟨a, ha, hfa⟩ := List.exists_of_findSome?_eq_some h
  cases a with
  | Unknown cls constructed len tag content =>
    cases cls with
    | ContextSpecific =>
      cases constructed with
      | true =>
        simp only [] at hfa
        by_cases ht : tag = 0
        · rw [if_pos ht] at hfa
          obtain rfl : Pkcs7.reconstructSignedAttrs content = d := by
            simpa using hfa
          refine ⟨content, rfl, rfl, ?_⟩
          intro hlen
          unfold Pkcs7.reconstructSignedAttrs
          rw [Pkcs7.rustShortLenEncode_eq_der content.length hlen]
        · rw [if_neg ht] at hfa
          exact absurd hfa (by simp)
      | false => exact absurd hfa (by simp)
    | Universal => exact absurd hfa (by simp)
    | Application => exact absurd hfa (by simp)
    | Private => exact absurd hfa (by simp)
  | Boolean len b => exact absurd hfa (by simp)
  | Integer len v => exact absurd hfa (by simp)
  | BitString len bits data => exact absurd hfa (by simp)
  | OctetString len data => exact absurd hfa (by simp)
  | Null len => exact absurd hfa (by simp)
  | ObjectIdentifier len oid => exact absurd hfa (by simp)
  | Sequence len items => exact absurd hfa (by simp)
  | Set len items => exact absurd hfa (by simp)
  | Explicit cls len tag inner => exact absurd hfa (by simp)

/-- C7 witness: the amended reconstruction theorem applied to a concrete
three-byte signedAttrs content. -/
theorem C7_signed_attrs_reconstruction_witness :
    ∃ content, Pkcs7.reconstructSignedAttrs [1, 2, 3] =
        Pkcs7.reconstructSignedAttrs content ∧
      (Pkcs7.reconstructSignedAttrs [1, 2, 3]).head? = some 0x31 ∧
      (content.length < 65536 →
        Pkcs7.reconstructSignedAttrs [1, 2, 3] =
          0x31 :: Pkcs7.derLengthEncode content.length ++ content) :=
  C7_signed_attrs_reconstruction
    [.Unknown .ContextSpecific true 0 0 [1, 2, 3]]
    (Pkcs7.reconstructSignedAttrs [1, 2, 3]) rfl

/-- A SignerInfo without any `[0]` signedAttrs block: version, the
issuerAndSerialNumber SEQUENCE (serial 7), the digestAlgorithm SEQUENCE
(SHA-1), a placeholder, and the encryptedDigest OCTET STRING. -/
def c5SignerInfo : List Pkcs7.ASN1Block :=
  [.Integer 0 1,
   .Sequence 0 [.Sequence 0 [], .Integer 0 7],
   .Sequence 0 [.ObjectIdentifier 0 Pkcs7.oidSha1],
   .Null 0,
   .OctetString 0 [5]]

/-- An encapContentInfo SEQUENCE with the data OID and a two-byte eContent
OCTET STRING; the bytes `[99, 47]` equal the SHA-1 stand-in hash of the
signed range of `c5Pdf`, so the messageDigest check passes. -/
def c5EContentSeq : Pkcs7.ASN1Block :=
  .Sequence 0 [.ObjectIdentifier 0 Pkcs7.oidData, .OctetString 0 [99, 47]]

/-- The tbsCertificate fields: serial 7 at index 1, then the
subjectPublicKeyInfo SEQUENCE with the rsaEncryption OID and the public-key
BIT STRING `[0xBB]`. -/
def c5Tbs : List Pkcs7.ASN1Block :=
  [.Null 0, .Integer 0 7,
   .Sequence 0 [.Sequence 0 [.ObjectIdentifier 0 Pkcs7.oidRsaEncryption],
     .BitString 0 0 [0xBB]]]

/-- The children of the SignedData SEQUENCE: version, encapContentInfo, the
`[0]` certificates block, and the SignerInfo SET. -/
def c5SignedChildren : List Pkcs7.ASN1Block :=
  [.Integer 0 1,
   c5EContentSeq,
   .Explicit .ContextSpecific 0 0 (.Set 0 [.Sequence 0 [.Sequence 0 c5Tbs]]),
   .Set 0 [.Sequence 0 c5SignerInfo]]

/-- The top-level ContentInfo SEQUENCE: signedData OID, then the SignedData
SEQUENCE. -/
def c5Top : Pkcs7.ASN1Block :=
  .Sequence 0 [.ObjectIdentifier 0 Pkcs7.oidSignedData,
    .Sequence 0 c5SignedChildren]

/-- The decoded RSAPublicKey SEQUENCE: modulus 193, exponent 3. -/
def c5RsaSeq : Pkcs7.ASN1Block := .Sequence 0 [.Integer 0 193, .Integer 0 3]

/-- Externals for the C5 run: `from_der` decodes the `/Contents` blob `[171]`
to `c5Top` and the key BIT STRING `[0xBB]` to `c5RsaSeq`; the SHA-1 stand-in
prepends the byte 99 to its input; RSA verification accepts. -/
def c5Ext : Pkcs7.Externals where
  fromDer := fun b =>
    if b = [171] then .ok [c5Top]
    else if b = [0xBB] then .ok [c5RsaSeq]
    else .error "unexpected DER input"
  h1 := fun l => 99 :: l
  h256 := fun l => l
  h384 := fun l => l
  h512 := fun l => l
  mkRsaKey := fun n e => .ok ⟨n, e⟩
  pkcs1Der := fun _ => [1, 2, 3]
  rsaVerify := fun _ _ _ _ => .ok

/-- A signed PDF input whose ByteRange covers only the first byte `/` and
whose `/Contents` hex decodes to `[171]`. -/
def c5Pdf : List Nat := strBytes "/ByteRange[0 1 0 0]/Contents <AB>"

/-- The VerifierParams produced by `parse_signed_data` on the C5 data:
modulus bytes of 193, exponent 3, signature `[5]`, `signed_attr_digest` set
to the hash of the eContent even though no signedAttrs are present, SHA-1,
and the raw eContent as the expected message digest. -/
def c5Params : Pkcs7.VerifierParams :=
  ⟨[0, 193], 3, [5], some [99, 99, 47], .Sha1WithRsaEncryption, some [99, 47]⟩

/-- The SignatureData produced by `get_signature_data` on the C5 data. -/
def c5Sd : Pkcs7.SignatureData :=
  ⟨[5], 7, some [99, 99, 47], .Sha1WithRsaEncryption, some [99, 47]⟩

/-- C5 counterexample: on `c5Pdf` the SignerInfo has no signedAttrs and the
calculated hash of the signed PDF bytes `[47]` is `[99, 47]`, yet the digest
handed to PKCS#1 v1.5 verification is `[99, 99, 47]` — the hash of the
embedded eContent, i.e. a second application of the hash — and not the
calculated hash itself; the whole run nevertheless succeeds. -/
theorem C5_counterexample :
    Pkcs7.extract_signed_attributes_der c5SignerInfo = none ∧
    SigValidator.calculate_signed_data_hash c5Ext [47] .Sha1WithRsaEncryption =
      .ok [99, 47] ∧
    Pkcs7.parse_signed_data c5Ext [171] = .ok c5Params ∧
    SigValidator.digestForSignature c5Params [99, 47] = [99, 99, 47] ∧
    ([99, 99, 47] : List Nat) ≠ [99, 47] ∧
    SigValidator.verify_pdf_signature c5Ext c5Pdf =
      some (.ok ⟨true, [99, 47], [1, 2, 3]⟩) :=
  ⟨rfl, rfl, rfl, rfl, by decide, rfl⟩

/-- C5 (amended): when the SignerInfo contains no signedAttrs and
`get_signature_data` succeeds, the expected messageDigest is the raw
embedded eContent, `digest_bytes` is the hash of that eContent, and the
digest handed to PKCS#1 v1.5 verification is that hash of the eContent —
not the calculated hash of the signed PDF bytes, whatever it is. -/
theorem C5_no_signed_attrs_digest (ext : Pkcs7.Externals)
    (seq si : List Pkcs7.ASN1Block) (sd : Pkcs7.SignatureData)
    (hsi : Pkcs7.extract_signer_info seq = .ok si)
    (hnone : Pkcs7.extract_signed_attributes_der si = none)
    (hok : Pkcs7.get_signature_data ext seq = .ok sd) :
    ∃ eContent digest,
      sd.expected_message_digest = some eContent ∧
      Pkcs7.hashWith ext sd.signed_algo eContent = some digest ∧
      sd.digest_bytes = some digest ∧
      ∀ (m : List Nat) (e : Nat) (calculated : List Nat),
        SigValidator.digestForSignature
          ⟨m, e, sd.signature, sd.digest_bytes, sd.signed_algo,
            sd.expected_message_digest⟩ calculated = digest := by
  simp only [Pkcs7.get_signature_data, hsi, hnone, Option.isSome_none] at hok
  cases hied : Pkcs7.extract_issuer_and_digest_algorithm si with
  | error e => simp [hied] at hok
  | ok p =>
    obtain ⟨serial, oid⟩ := p
    cases hemb : Pkcs7.extract_signed_content_digest ext seq with
    | error e => simp [hied, hemb] at hok
    | ok embedded =>
      cases embedded with
      | none => simp [hied, hemb] at hok
      | some digest0 =>
        cases halg : Pkcs7.digest_algorithm_from_oid oid with
        | error e => simp [hied, hemb, halg] at hok
        | ok algo =>
          cases hh : Pkcs7.hashWith ext algo digest0 with
          | none => simp [hied, hemb, halg, hh] at hok
          | some sdig =>
            cases hsig : Pkcs7.extract_signature si false with
            | error e => simp [hied, hemb, halg, hh, hsig] at hok
            | ok sigv =>
              simp only [hied, hemb, halg, hh, hsig, Except.ok.injEq] at hok
              subst hok
              exact ⟨digest0, sdig, rfl, hh, rfl, fun m e c => rfl⟩

/-- C5 witness: the amended no-signedAttrs theorem applied to the concrete
C5 data. -/
theorem C5_no_signed_attrs_digest_witness :
    ∃ eContent digest,
      c5Sd.expected_message_digest = some eContent ∧
      Pkcs7.hashWith c5Ext c5Sd.signed_algo eContent = some digest ∧
      c5Sd.digest_bytes = some digest ∧
      ∀ (m : List Nat) (e : Nat) (calculated : List Nat),
        SigValidator.digestForSignature
          ⟨m, e, c5Sd.signature, c5Sd.digest_bytes, c5Sd.signed_algo,
            c5Sd.expected_message_digest⟩ calculated = digest :=
  C5_no_signed_attrs_digest c5Ext c5SignedChildren c5SignerInfo c5Sd rfl rfl rfl

end ZkPdf
